import Mathlib

/-!
# Verification of the nickel interpreter sources

A shallow embedding of the three source files of the repository:

* `src/src/typecheck.rs` — the type-checking engine (unification, row
  constraints, bidirectional checking in strict/permissive mode);
* `src/src/operation.rs` — the strict primitive operations of the evaluator;
* `src/nickel/src/capi.rs` — the C embedding boundary.

Conventions used throughout:

* Rust `f64` numbers are embedded as exact rationals (`Rat`).  All the
  number-manipulating code relevant here (`fract`, saturating `as usize`
  casts, `+`, comparisons) is translated at its exact-rational meaning;
  NaN/infinity never arise in the statements below.
* Rust `HashMap<usize, V>` tables whose keys are always `0 .. n-1` (the
  unification table) are embedded as `List (Option TypeWrapper)` indexed by
  position; other maps become association lists.  `HashMap` iteration order
  is unspecified in Rust; the embedding iterates in list order.
* Functions that can loop (union-find chasing, unification, type checking)
  take a fuel argument and return `Option _`; `none` covers both fuel
  exhaustion and a Rust `panic!`/`unwrap` abort.  When a statement asserts a
  `none` result for *every* fuel, or exhibits a `some` result at a specific
  fuel, the fuel convention is irrelevant: a `some` result is the value the
  Rust function computes.
* Pieces of the repository that the three files use but that are not part of
  the sources (the term constructors' helper methods, `stack.rs`, `eval.rs`,
  `merge.rs`, the `nickel_lang_core` value accessors) are modelled from the
  specification; each such definition is marked `Modelled from the spec:`.
-/

namespace Nickel

/-- Identifiers (`Ident(String)` in `identifier.rs`). -/
abbrev Ident := String

/-- Modelled from the spec: a source span (`position.rs` is outside the
sources).  Spans are carried around for diagnostics and never influence
control flow. -/
structure RawSpan where
  spanStart : Nat
  spanEnd : Nat
deriving DecidableEq

/-- Elements of a label/type path (`label::ty_path::Elem`; `label.rs` is
outside the sources — the spec lists `Domain`, `Codomain` and `Field(id)`). -/
inductive PathElem where
  | domain
  | codomain
  | field (id : Ident)
deriving DecidableEq

/-- Modelled from the spec: a blame label
`{ tag, polarity, path }` (`label.rs` is outside the sources). -/
structure Label where
  tag : String
  polarity : Bool
  path : List PathElem
deriving DecidableEq

mutual

/-- The term model of `src/src` (the variants matched exhaustively by
`type_check_` in `typecheck.rs`). -/
inductive Term where
  | bool (b : Bool)
  | num (n : Rat)
  | str (s : String)
  | strChunks (chunks : List StrChunk)
  | funT (x : Ident) (body : RichTerm)
  | letT (x : Ident) (bound : RichTerm) (body : RichTerm)
  | app (f : RichTerm) (arg : RichTerm)
  | var (x : Ident)
  | enum (id : Ident)
  | record (fields : List (Ident × RichTerm))
  | recRecord (fields : List (Ident × RichTerm))
  | listT (ts : List RichTerm)
  | lbl (l : Label)
  | sym (s : Nat)
  | wrapped (s : Nat) (t : RichTerm)
  | op1 (op : UnaryOp) (t : RichTerm)
  | op2 (op : BinaryOp) (t1 : RichTerm) (t2 : RichTerm)
  | promise (ty : Types) (l : Label) (t : RichTerm)
  | assume (ty : Types) (l : Label) (t : RichTerm)
  | contract (ty : Types) (l : Label)
  | defaultValue (t : RichTerm)
  | contractWithDefault (ty : Types) (l : Label) (t : RichTerm)
  | docstring (s : String) (t : RichTerm)
  | importE (path : String)
  | resolvedImport (fileId : Nat)

/-- A term together with its optional source position (`RichTerm`). -/
inductive RichTerm where
  | mk (term : Term) (pos : Option RawSpan)

/-- A chunk of an interpolated string (`StrChunk<RichTerm>`). -/
inductive StrChunk where
  | literal (s : String)
  | expr (e : RichTerm)

/-- Unary operators over terms (`UnaryOp<RichTerm>`). -/
inductive UnaryOp where
  | ite
  | isZero
  | isNum
  | isBool
  | isStr
  | isFun
  | isList
  | isRecord
  | blame
  | embed (id : Ident)
  | switch (cases : List (Ident × RichTerm)) (dflt : Option RichTerm)
  | changePolarity
  | pol
  | goDom
  | goCodom
  | tag (s : String)
  | wrap
  | staticAccess (id : Ident)
  | fieldsOf
  | mapRec (f : RichTerm)
  | seq
  | deepSeq
  | listHead
  | listTail
  | listLength
  | chunksConcat (acc : String) (tail : List StrChunk)

/-- Binary operators over terms (`BinaryOp<RichTerm>`).  The equality
operator is spelled `Eq` in `typecheck.rs` and `EqBool` in `operation.rs`
(the two files come from slightly different revisions); it is one
constructor here. -/
inductive BinaryOp where
  | plus
  | plusStr
  | unwrap
  | eq
  | dynAccess
  | dynExtend (t : RichTerm)
  | dynRemove
  | hasField
  | listConcat
  | listMap
  | listElemAt
  | merge

/-- Vanilla nickel types: `Types(AbsType<Box<Types>>)`, with the one-field
wrapper flattened into a single inductive. -/
inductive Types where
  | dyn
  | num
  | bool
  | str
  | sym
  | listT
  | arrow (dom : Types) (cod : Types)
  | var (i : Ident)
  | forallT (i : Ident) (body : Types)
  | flat (t : RichTerm)
  | rowEmpty
  | rowExtend (id : Ident) (ty : Option Types) (tail : Types)
  | enum (r : Types)
  | staticRecord (r : Types)
  | dynRecord (d : Types)

end

/-- The field `term` of a `RichTerm`. -/
def RichTerm.term : RichTerm → Term
  | .mk t _ => t

/-- The field `pos` of a `RichTerm`. -/
def RichTerm.pos : RichTerm → Option RawSpan
  | .mk _ p => p

/-- `Term::X.into()`: wrap a term with no position. -/
def Term.rt (t : Term) : RichTerm := .mk t none

/-- `RichTerm::var(s)`: a variable occurrence with no position. -/
def RichTerm.varRt (s : String) : RichTerm := .mk (.var s) none

mutual

/-- The types on which unification operates (`TypeWrapper`). -/
inductive TypeWrapper where
  | concrete (t : AbsType)
  | constant (n : Nat)
  | ptr (n : Nat)

/-- `AbsType<Box<TypeWrapper>>`, the concrete shapes under
`TypeWrapper::Concrete`. -/
inductive AbsType where
  | dyn
  | num
  | bool
  | str
  | sym
  | listT
  | arrow (dom : TypeWrapper) (cod : TypeWrapper)
  | var (i : Ident)
  | forallT (i : Ident) (body : TypeWrapper)
  | flat (t : RichTerm)
  | rowEmpty
  | rowExtend (id : Ident) (ty : Option TypeWrapper) (tail : TypeWrapper)
  | enum (r : TypeWrapper)
  | staticRecord (r : TypeWrapper)
  | dynRecord (d : TypeWrapper)

end

/-- Modelled from the spec: `AbsType::is_row_type` (`types.rs` is outside
the sources).  Rows are the `RowEmpty`/`RowExtend` chains of §4.5. -/
def AbsType.is_row_type : AbsType → Bool
  | .rowEmpty => true
  | .rowExtend _ _ _ => true
  | _ => false

/-- The unification table (`UnifTable = HashMap<usize, Option<TypeWrapper>>`).
Its keys are always exactly `0 .. n-1` (`new_var` inserts key `table.len()`),
so it is embedded positionally. -/
abbrev UnifTable := List (Option TypeWrapper)

/-- Row constraints (`RowConstr = HashMap<usize, HashSet<Ident>>`), with the
sets embedded as lists (only membership is ever queried). -/
abbrev RowConstr := List (Nat × List Ident)

/-- Lookup in an association list keyed by `Nat` (`HashMap::get`). -/
def assocNat {α : Type} : List (Nat × α) → Nat → Option α
  | [], _ => none
  | (k, v) :: r, x => if k = x then some v else assocNat r x

/-- `HashMap::remove` on an association list keyed by `Nat`. -/
def assocNatRemove {α : Type} (l : List (Nat × α)) (k : Nat) : List (Nat × α) :=
  l.filter (fun kv => kv.1 != k)

/-- `HashMap::insert` on an association list keyed by `Nat`. -/
def assocNatInsert {α : Type} (l : List (Nat × α)) (k : Nat) (v : α) : List (Nat × α) :=
  (k, v) :: assocNatRemove l k

/-- The mutable unification state held in `State` (minus the import
resolver, which is passed as a separate argument where needed): the
unification table, the row constraints, and the `names` map used for error
reporting. -/
structure UState where
  table : UnifTable
  constr : RowConstr
  names : List (Nat × Ident)

/-- `new_var`: create a fresh unification variable.  The fresh index is the
table size and the new entry is unbound. -/
def newVar (t : UnifTable) : Nat × UnifTable := (t.length, t ++ [none])

/-- `get_root`: follow the links of the unification table to the
representative.  `none` models fuel exhaustion or the `unwrap` panic on an
absent key. -/
def getRoot : Nat → UnifTable → Nat → Option TypeWrapper
  | 0, _, _ => none
  | fuel + 1, table, x =>
    match table.get? x with
    | none => none
    | some none => some (.ptr x)
    | some (some (.ptr y)) => getRoot fuel table y
    | some (some tw) => some tw

/-- `UnifError` from `typecheck.rs`. -/
inductive UnifError where
  | typeMismatch (t1 t2 : TypeWrapper)
  | rowMismatch (id : Ident) (t1 t2 : TypeWrapper) (err : UnifError)
  | rowKindMismatch (id : Ident) (t1 t2 : Option TypeWrapper)
  | constMismatch (c1 c2 : Nat)
  | missingRow (id : Ident) (t1 t2 : TypeWrapper)
  | extraRow (id : Ident) (t1 t2 : TypeWrapper)
  | illformedRow (t : TypeWrapper)
  | rowConflict (id : Ident) (t : Option TypeWrapper) (l r : TypeWrapper)
  | withConst (c : Nat) (t : TypeWrapper)
  | illformedFlatType (t : RichTerm)
  | illformedType (t : TypeWrapper)
  | unboundTypeVariable (id : Ident)
  | domainMismatch (t1 t2 : TypeWrapper) (err : UnifError)
  | codomainMismatch (t1 t2 : TypeWrapper) (err : UnifError)

/-- `RowUnifError` from `typecheck.rs`. -/
inductive RowUnifError where
  | missingRow (id : Ident)
  | extraRow (id : Ident)
  | rowMismatch (id : Ident) (err : UnifError)
  | rowKindMismatch (id : Ident) (t1 t2 : Option TypeWrapper)
  | illformedRow (t : TypeWrapper)
  | unsatConstr (id : Ident) (t : Option TypeWrapper)
  | withConst (c : Nat) (t : TypeWrapper)
  | constMismatch (c1 c2 : Nat)

/-- `RowUnifError::to_unif_err`: promote a row unification error. -/
def RowUnifError.to_unif_err : RowUnifError → TypeWrapper → TypeWrapper → UnifError
  | .missingRow id, l, r => .missingRow id l r
  | .extraRow id, l, r => .extraRow id l r
  | .rowKindMismatch id t1 t2, _, _ => .rowKindMismatch id t1 t2
  | .rowMismatch id err, l, r => .rowMismatch id l r err
  | .illformedRow t, _, _ => .illformedRow t
  | .unsatConstr id t, l, r => .rowConflict id t l r
  | .withConst c t, _, _ => .withConst c t
  | .constMismatch c1 c2, _, _ => .constMismatch c1 c2

/-- `TypeWrapper::subst`: substitute a type variable inside a type
wrapper. -/
def TypeWrapper.subst : TypeWrapper → Ident → TypeWrapper → TypeWrapper
  | .concrete (.var i), id, trg => if i = id then trg else .concrete (.var i)
  | .concrete (.forallT i t), id, trg =>
      if i = id then .concrete (.forallT i t)
      else .concrete (.forallT i (t.subst id trg))
  | .concrete .dyn, _, _ => .concrete .dyn
  | .concrete .num, _, _ => .concrete .num
  | .concrete .bool, _, _ => .concrete .bool
  | .concrete .str, _, _ => .concrete .str
  | .concrete .sym, _, _ => .concrete .sym
  | .concrete (.flat t), _, _ => .concrete (.flat t)
  | .concrete (.arrow s t), id, trg =>
      .concrete (.arrow (s.subst id trg) (t.subst id trg))
  | .concrete .rowEmpty, _, _ => .concrete .rowEmpty
  | .concrete (.rowExtend tg ty rest), id, trg =>
      .concrete (.rowExtend tg
        (match ty with
         | none => none
         | some x => some (x.subst id trg))
        (rest.subst id trg))
  | .concrete (.enum row), id, trg => .concrete (.enum (row.subst id trg))
  | .concrete (.staticRecord row), id, trg => .concrete (.staticRecord (row.subst id trg))
  | .concrete (.dynRecord dt), id, trg => .concrete (.dynRecord (dt.subst id trg))
  | .concrete .listT, _, _ => .concrete .listT
  | .constant x, _, _ => .constant x
  | .ptr x, _, _ => .ptr x

/-- `constraint`: add a row constraint on a type. -/
def constraintF : Nat → UState → TypeWrapper → Ident →
    Option (Except RowUnifError Unit × UState)
  | 0, _, _, _ => none
  | fuel + 1, st, x, id =>
    match x with
    | .ptr p =>
      match getRoot (fuel + 1) st.table p with
      | none => none
      | some (.concrete ty) => constraintF fuel st (.concrete ty) id
      | some (.ptr root) =>
          let prev := (assocNat st.constr root).getD []
          some (.ok (), { st with constr := assocNatInsert st.constr root (id :: prev) })
      | some (.constant c) => some (.error (.illformedRow (.constant c)), st)
    | .concrete .rowEmpty => some (.ok (), st)
    | .concrete (.rowExtend id2 tyw t) =>
        if id2 = id then some (.error (.unsatConstr id tyw), st)
        else constraintF fuel st t id
    | other => some (.error (.illformedRow other), st)

mutual

/-- `row_add`: look for a binding in a row, or add one to a row variable if
its constraints allow it. -/
def rowAddF : Nat → UState → Ident → Option TypeWrapper → TypeWrapper →
    Option (Except RowUnifError (Option TypeWrapper × TypeWrapper) × UState)
  | 0, _, _, _, _ => none
  | fuel + 1, st, id, ty, r =>
    match (match r with
           | .ptr p => getRoot (fuel + 1) st.table p
           | other => some other) with
    | none => none
    | some r' =>
      match r' with
      | .concrete .rowEmpty => some (.error (.missingRow id), st)
      | .concrete (.rowExtend id2 ty2 r2) =>
          if id = id2 then some (.ok (ty2, r2), st)
          else
            match rowAddF fuel st id ty r2 with
            | none => none
            | some (.error e, st1) => some (.error e, st1)
            | some (.ok (extracted, subrow), st1) =>
                some (.ok (extracted, .concrete (.rowExtend id2 ty2 subrow)), st1)
      | .ptr root =>
          if (match assocNat st.constr root with
              | some set => set.contains id
              | none => false) then
            some (.error (.unsatConstr id ty), st)
          else
            let (v, table1) := newVar st.table
            let newRow := TypeWrapper.ptr v
            match constraintF fuel { st with table := table1 } newRow id with
            | none => none
            | some (.error e, st1) => some (.error e, st1)
            | some (.ok (), st1) =>
                some (.ok (ty, newRow),
                  { st1 with table :=
                      st1.table.set root (some (.concrete (.rowExtend id ty newRow))) })
      | other => some (.error (.illformedRow other), st)

/-- `unify_`: unify two types (strict mode).  Both sides are first chased to
their representatives. -/
def unifyF : Nat → UState → TypeWrapper → TypeWrapper →
    Option (Except UnifError Unit × UState)
  | 0, _, _, _ => none
  | fuel + 1, st, t1, t2 =>
    match (match t1 with | .ptr p => getRoot (fuel + 1) st.table p | t => some t),
          (match t2 with | .ptr p => getRoot (fuel + 1) st.table p | t => some t) with
    | none, _ => none
    | _, none => none
    | some t1r, some t2r =>
      match t1r, t2r with
      | .concrete s1, .concrete s2 => unifyConcreteF fuel st s1 s2
      | .ptr r1, .ptr r2 =>
          if r1 ≠ r2 then
            let r1c := (assocNat st.constr r1).getD []
            let r2c := (assocNat st.constr r2).getD []
            let constr1 :=
              assocNatInsert (assocNatRemove (assocNatRemove st.constr r1) r2) r1 (r1c ++ r2c)
            some (.ok (), { st with constr := constr1,
                                    table := st.table.set r1 (some (.ptr r2)) })
          else some (.ok (), st)
      | .ptr p, .concrete s =>
          some (.ok (), { st with table := st.table.set p (some (.concrete s)) })
      | .ptr p, .constant c =>
          some (.ok (), { st with table := st.table.set p (some (.constant c)) })
      | .concrete s, .ptr p =>
          some (.ok (), { st with table := st.table.set p (some (.concrete s)) })
      | .constant c, .ptr p =>
          some (.ok (), { st with table := st.table.set p (some (.constant c)) })
      | .constant i1, .constant i2 =>
          if i1 = i2 then some (.ok (), st) else some (.error (.constMismatch i1 i2), st)
      | .concrete s, .constant i => some (.error (.withConst i (.concrete s)), st)
      | .constant i, .concrete s => some (.error (.withConst i (.concrete s)), st)

/-- The `(Concrete, Concrete)` arm of `unify_`, with the source's arm order
(the row-type guard sits between the `Flat` arm and the `Enum` arm). -/
def unifyConcreteF : Nat → UState → AbsType → AbsType →
    Option (Except UnifError Unit × UState)
  | 0, _, _, _ => none
  | fuel + 1, st, s1, s2 =>
    match s1, s2 with
    | .dyn, .dyn => some (.ok (), st)
    | .num, .num => some (.ok (), st)
    | .bool, .bool => some (.ok (), st)
    | .str, .str => some (.ok (), st)
    | .listT, .listT => some (.ok (), st)
    | .sym, .sym => some (.ok (), st)
    | .arrow s1s s1t, .arrow s2s s2t =>
        match unifyF fuel st s1s s2s with
        | none => none
        | some (.error e, st1) =>
            some (.error (.domainMismatch (.concrete (.arrow s1s s1t))
                                          (.concrete (.arrow s2s s2t)) e), st1)
        | some (.ok (), st1) =>
          match unifyF fuel st1 s1t s2t with
          | none => none
          | some (.error e, st2) =>
              some (.error (.codomainMismatch (.concrete (.arrow s1s s1t))
                                              (.concrete (.arrow s2s s2t)) e), st2)
          | some (.ok (), st2) => some (.ok (), st2)
    | .flat s, .flat t =>
        match s.term, t.term with
        | .var vs, .var ts =>
            if vs = ts then some (.ok (), st)
            else some (.error (.typeMismatch (.concrete (.flat s)) (.concrete (.flat t))), st)
        | .var _, _ => some (.error (.illformedFlatType t), st)
        | _, _ => some (.error (.illformedFlatType s), st)
    | r1, r2 =>
      if r1.is_row_type && r2.is_row_type then
        match unifyRowsF fuel st r1 r2 with
        | none => none
        | some (.error e, st1) =>
            some (.error (e.to_unif_err (.concrete r1) (.concrete r2)), st1)
        | some (.ok (), st1) => some (.ok (), st1)
      else
        match r1, r2 with
        | .enum tyw1, .enum tyw2 =>
          (match tyw1, tyw2 with
           | .concrete e1, .concrete e2 =>
             if e1.is_row_type && e2.is_row_type then
               match unifyRowsF fuel st e1 e2 with
               | none => none
               | some (.error e, st1) =>
                   some (.error (e.to_unif_err
                     (.concrete (.enum (.concrete e1)))
                     (.concrete (.enum (.concrete e2)))), st1)
               | some (.ok (), st1) => some (.ok (), st1)
             else if !e1.is_row_type then
               some (.error (.illformedType (.concrete (.enum (.concrete e1)))), st)
             else
               some (.error (.illformedType (.concrete (.enum (.concrete e2)))), st)
           | .concrete e1, tyw2' =>
             if !e1.is_row_type then
               some (.error (.illformedType (.concrete (.enum (.concrete e1)))), st)
             else unifyF fuel st (.concrete e1) tyw2'
           | tyw1', .concrete e2 =>
             if !e2.is_row_type then
               some (.error (.illformedType (.concrete (.enum (.concrete e2)))), st)
             else unifyF fuel st tyw1' (.concrete e2)
           | tyw1', tyw2' => unifyF fuel st tyw1' tyw2')
        | .staticRecord tyw1, .staticRecord tyw2 =>
          (match tyw1, tyw2 with
           | .concrete e1, .concrete e2 =>
             if e1.is_row_type && e2.is_row_type then
               match unifyRowsF fuel st e1 e2 with
               | none => none
               | some (.error e, st1) =>
                   some (.error (e.to_unif_err
                     (.concrete (.staticRecord (.concrete e1)))
                     (.concrete (.staticRecord (.concrete e2)))), st1)
               | some (.ok (), st1) => some (.ok (), st1)
             else if !e1.is_row_type then
               some (.error (.illformedType (.concrete (.staticRecord (.concrete e1)))), st)
             else
               some (.error (.illformedType (.concrete (.staticRecord (.concrete e2)))), st)
           | .concrete e1, tyw2' =>
             if !e1.is_row_type then
               some (.error (.illformedType (.concrete (.staticRecord (.concrete e1)))), st)
             else unifyF fuel st (.concrete e1) tyw2'
           | tyw1', .concrete e2 =>
             if !e2.is_row_type then
               some (.error (.illformedType (.concrete (.staticRecord (.concrete e2)))), st)
             else unifyF fuel st tyw1' (.concrete e2)
           | tyw1', tyw2' => unifyF fuel st tyw1' tyw2')
        | .dynRecord d1, .dynRecord d2 => unifyF fuel st d1 d2
        | .forallT i1 t1t, .forallT i2 t2t =>
            let (cid, table1) := newVar st.table
            unifyF fuel { st with table := table1 }
              (t1t.subst i1 (.constant cid)) (t2t.subst i2 (.constant cid))
        | .var ident, _ => some (.error (.unboundTypeVariable ident), st)
        | _, .var ident => some (.error (.unboundTypeVariable ident), st)
        | ty1, ty2 => some (.error (.typeMismatch (.concrete ty1) (.concrete ty2)), st)

/-- `unify_rows`: unify two row types. -/
def unifyRowsF : Nat → UState → AbsType → AbsType →
    Option (Except RowUnifError Unit × UState)
  | 0, _, _, _ => none
  | fuel + 1, st, t1, t2 =>
    match t1, t2 with
    | .rowEmpty, .rowEmpty => some (.ok (), st)
    | .rowEmpty, .rowExtend ident _ _ => some (.error (.extraRow ident), st)
    | .rowExtend ident _ _, .rowEmpty => some (.error (.extraRow ident), st)
    | .rowExtend id ty t, .rowExtend id2 ty2b r2b =>
        match rowAddF fuel st id ty (.concrete (.rowExtend id2 ty2b r2b)) with
        | none => none
        | some (.error e, st1) => some (.error e, st1)
        | some (.ok (ty2, t2Tail), st1) =>
          match (match ty, ty2 with
                 | none, none => some ((Except.ok () : Except RowUnifError Unit), st1)
                 | some tyA, some tyB =>
                     match unifyF fuel st1 tyA tyB with
                     | none => none
                     | some (.error e, st2) => some (.error (.rowMismatch id e), st2)
                     | some (.ok (), st2) => some (.ok (), st2)
                 | ty1o, ty2o => some (.error (.rowKindMismatch id ty1o ty2o), st1)) with
          | none => none
          | some (.error e, st2) => some (.error e, st2)
          | some (.ok (), st2) =>
            match t, t2Tail with
            | .concrete r1Tail, .concrete r2Tail => unifyRowsF fuel st2 r1Tail r2Tail
            | t1Tail, t2Tail' =>
                match unifyF fuel st2 t1Tail t2Tail' with
                | none => none
                | some (.error (.constMismatch c1 c2), st3) =>
                    some (.error (.constMismatch c1 c2), st3)
                | some (.error (.withConst c1 tyw), st3) =>
                    some (.error (.withConst c1 tyw), st3)
                | some (.error _, _) => none
                | some (.ok (), st3) => some (.ok (), st3)
    | ty1, ty2 =>
        if ty1.is_row_type = false then some (.error (.illformedRow (.concrete ty1)), st)
        else some (.error (.illformedRow (.concrete ty2)), st)

end

/-- `unify`: the strict-flag wrapper around `unify_`; a no-op in permissive
mode. -/
def unify (fuel : Nat) (st : UState) (strict : Bool) (t1 t2 : TypeWrapper) :
    Option (Except UnifError Unit × UState) :=
  if strict then unifyF fuel st t1 t2 else some (.ok (), st)

/-- `to_typewrapper`: convert a vanilla type to a type wrapper (everything
becomes `Concrete`). -/
def toTypewrapper : Types → TypeWrapper
  | .dyn => .concrete .dyn
  | .num => .concrete .num
  | .bool => .concrete .bool
  | .str => .concrete .str
  | .sym => .concrete .sym
  | .listT => .concrete .listT
  | .arrow s t => .concrete (.arrow (toTypewrapper s) (toTypewrapper t))
  | .var i => .concrete (.var i)
  | .forallT i t => .concrete (.forallT i (toTypewrapper t))
  | .flat t => .concrete (.flat t)
  | .rowEmpty => .concrete .rowEmpty
  | .rowExtend id ty tail =>
      .concrete (.rowExtend id
        (match ty with
         | none => none
         | some x => some (toTypewrapper x))
        (toTypewrapper tail))
  | .enum r => .concrete (.enum (toTypewrapper r))
  | .staticRecord r => .concrete (.staticRecord (toTypewrapper r))
  | .dynRecord d => .concrete (.dynRecord (toTypewrapper d))

/-- `to_type`: extract a concrete type from a type wrapper; free unification
variables and constants become `Dyn`. -/
def toType : Nat → UnifTable → TypeWrapper → Option Types
  | 0, _, _ => none
  | fuel + 1, table, ty =>
    match ty with
    | .ptr p =>
      match getRoot (fuel + 1) table p with
      | none => none
      | some (.concrete t) => toType fuel table (.concrete t)
      | some _ => some .dyn
    | .constant _ => some .dyn
    | .concrete t =>
      match t with
      | .dyn => some .dyn
      | .num => some .num
      | .bool => some .bool
      | .str => some .str
      | .sym => some .sym
      | .listT => some .listT
      | .arrow s u => do
          let s' ← toType fuel table s
          let u' ← toType fuel table u
          pure (.arrow s' u')
      | .var i => some (.var i)
      | .forallT i u => do
          let u' ← toType fuel table u
          pure (.forallT i u')
      | .flat rt => some (.flat rt)
      | .rowEmpty => some .rowEmpty
      | .rowExtend id oty tail => do
          let oty' ← (match oty with
                      | none => pure none
                      | some x => do
                          let x' ← toType fuel table x
                          pure (some x'))
          let tail' ← toType fuel table tail
          pure (.rowExtend id oty' tail')
      | .enum r => do
          let r' ← toType fuel table r
          pure (.enum r')
      | .staticRecord r => do
          let r' ← toType fuel table r
          pure (.staticRecord r')
      | .dynRecord d => do
          let d' ← toType fuel table d
          pure (.dynRecord d')

/-- `TypecheckError` (the constructors of `error.rs` used by
`typecheck.rs`, with their payload shapes read off the construction
sites). -/
inductive TypecheckError where
  | typeMismatch (expected actual : Types) (pos : Option RawSpan)
  | rowMismatch (id : Ident) (t1 t2 : Types) (err : TypecheckError) (pos : Option RawSpan)
  | rowKindMismatch (id : Ident) (t1 t2 : Option Types) (pos : Option RawSpan)
  | missingRow (id : Ident) (t1 t2 : Types) (pos : Option RawSpan)
  | extraRow (id : Ident) (t1 t2 : Types) (pos : Option RawSpan)
  | illformedType (t : Types)
  | rowConflict (id : Ident) (t : Option Types) (l r : Types) (pos : Option RawSpan)
  | unboundTypeVariable (id : Ident) (pos : Option RawSpan)
  | arrowTypeMismatch (expected actual : Types) (path : List PathElem)
      (err : TypecheckError) (pos : Option RawSpan)
  | unboundIdentifier (id : Ident) (pos : Option RawSpan)

/-- `reporting::NameReg`: registry assigning human-readable names to
unification variables and constants. -/
structure NameReg where
  reg : List (Nat × Ident)
  taken : List String
  varCount : Nat
  cstCount : Nat

/-- `NameReg::new()`. -/
def NameReg.new : NameReg := ⟨[], [], 0, 0⟩

/-- `reporting::mk_name`: candidate name for a variable or constant;
returns the name and the updated counter. -/
def mkName (names : List (Nat × Ident)) (counter : Nat) (id : Nat) : String × Nat :=
  match assocNat names id with
  | some orig => (orig, counter)
  | none => (String.singleton (Char.ofNat ('a'.toNat + counter % 26)), counter + 1)

/-- The suffix-search loop of `reporting::select_uniq` (fueled; the loop in
the source is unbounded). -/
def findSuffix : Nat → List String → String → Nat → Option Nat
  | 0, _, _, _ => none
  | fuel + 1, taken, name, suffix =>
    if taken.contains (name ++ toString suffix) then findSuffix fuel taken name (suffix + 1)
    else some suffix

/-- `reporting::select_uniq`: pick a name not yet taken and record it. -/
def selectUniq (fuel : Nat) (nameReg : NameReg) (name : String) (id : Nat) :
    Option (Ident × NameReg) :=
  (if nameReg.taken.contains name then
     (findSuffix fuel nameReg.taken name 1).map (fun suffix => name ++ toString suffix)
   else some name).map
    (fun nm => (nm, { nameReg with reg := assocNatInsert nameReg.reg id nm }))

/-- `reporting::var_to_type`: name a free unification variable. -/
def varToType (fuel : Nat) (names : List (Nat × Ident)) (nameReg : NameReg) (p : Nat) :
    Option (Types × NameReg) :=
  match assocNat nameReg.reg p with
  | some ident => some (.var ident, nameReg)
  | none =>
      let (nm, varCount') := mkName names nameReg.varCount p
      let name := "_" ++ nm
      (selectUniq fuel { nameReg with varCount := varCount' } name p).map
        (fun (ident, nr) => (.var ident, nr))

/-- `reporting::cst_to_type`: name a type constant. -/
def cstToType (fuel : Nat) (names : List (Nat × Ident)) (nameReg : NameReg) (c : Nat) :
    Option (Types × NameReg) :=
  match assocNat nameReg.reg c with
  | some ident => some (.var ident, nameReg)
  | none =>
      let (name, cstCount') := mkName names nameReg.cstCount c
      (selectUniq fuel { nameReg with cstCount := cstCount' } name c).map
        (fun (ident, nr) => (.var ident, nr))

/-- `reporting::to_type`: a human-readable `Types` for a type wrapper,
threading the name registry. -/
def reportingToType : Nat → UState → NameReg → TypeWrapper → Option (Types × NameReg)
  | 0, _, _, _ => none
  | fuel + 1, st, nameReg, ty =>
    match ty with
    | .ptr p =>
      match getRoot (fuel + 1) st.table p with
      | none => none
      | some (.ptr p') => varToType (fuel + 1) st.names nameReg p'
      | some tyw => reportingToType fuel st nameReg tyw
    | .constant c => cstToType (fuel + 1) st.names nameReg c
    | .concrete t =>
      match t with
      | .dyn => some (.dyn, nameReg)
      | .num => some (.num, nameReg)
      | .bool => some (.bool, nameReg)
      | .str => some (.str, nameReg)
      | .sym => some (.sym, nameReg)
      | .listT => some (.listT, nameReg)
      | .arrow s u => do
          let (s', nr1) ← reportingToType fuel st nameReg s
          let (u', nr2) ← reportingToType fuel st nr1 u
          pure (.arrow s' u', nr2)
      | .var i => some (.var i, nameReg)
      | .forallT i u => do
          let (u', nr1) ← reportingToType fuel st nameReg u
          pure (.forallT i u', nr1)
      | .flat rt => some (.flat rt, nameReg)
      | .rowEmpty => some (.rowEmpty, nameReg)
      | .rowExtend id oty tail => do
          let (oty', nr1) ← (match oty with
                             | none => pure (none, nameReg)
                             | some x => do
                                 let (x', nr) ← reportingToType fuel st nameReg x
                                 pure (some x', nr))
          let (tail', nr2) ← reportingToType fuel st nr1 tail
          pure (.rowExtend id oty' tail', nr2)
      | .enum r => do
          let (r', nr1) ← reportingToType fuel st nameReg r
          pure (.enum r', nr1)
      | .staticRecord r => do
          let (r', nr1) ← reportingToType fuel st nameReg r
          pure (.staticRecord r', nr1)
      | .dynRecord d => do
          let (d', nr1) ← reportingToType fuel st nameReg d
          pure (.dynRecord d', nr1)

/-- `UnifError::to_type_path` as a recursion accumulating the path; the
`panic!` arms (a `(Co)DomainMismatch` over non-arrows) and the `unwrap` of a
`None` result both surface as `none` at the caller. -/
def toTypePathAux : UnifError → List PathElem → Option (TypeWrapper × TypeWrapper) →
    Option (TypeWrapper × TypeWrapper × List PathElem × UnifError)
  | .domainMismatch t1 t2 err, path, tyws =>
    (match t1, t2 with
     | .concrete (.arrow a1 b1), .concrete (.arrow a2 b2) =>
         toTypePathAux err (path ++ [.domain])
           (tyws.orElse (fun _ => some (.concrete (.arrow a1 b1), .concrete (.arrow a2 b2))))
     | _, _ => none)
  | .codomainMismatch t1 t2 err, path, tyws =>
    (match t1, t2 with
     | .concrete (.arrow a1 b1), .concrete (.arrow a2 b2) =>
         toTypePathAux err (path ++ [.codomain])
           (tyws.orElse (fun _ => some (.concrete (.arrow a1 b1), .concrete (.arrow a2 b2))))
     | _, _ => none)
  | other, path, tyws => tyws.map (fun (expd, actual) => (expd, actual, path, other))

/-- `UnifError::to_type_path`. -/
def toTypePath (err : UnifError) : Option (TypeWrapper × TypeWrapper × List PathElem × UnifError) :=
  toTypePathAux err [] none

/-- `UnifError::to_typecheck_err_`: convert a unification error into a
typechecking error, naming variables along the way. -/
def toTypecheckErrAux : Nat → UState → NameReg → Option RawSpan → UnifError →
    Option (TypecheckError × NameReg)
  | 0, _, _, _, _ => none
  | fuel + 1, st, nameReg, posOpt, err =>
    match err with
    | .typeMismatch ty1 ty2 => do
        let (ty1', nr1) ← reportingToType (fuel + 1) st nameReg ty1
        let (ty2', nr2) ← reportingToType (fuel + 1) st nr1 ty2
        pure (.typeMismatch ty1' ty2' posOpt, nr2)
    | .rowMismatch ident tyw1 tyw2 e => do
        let (ty1', nr1) ← reportingToType (fuel + 1) st nameReg tyw1
        let (ty2', nr2) ← reportingToType (fuel + 1) st nr1 tyw2
        let (e', nr3) ← toTypecheckErrAux fuel st nr2 none e
        pure (.rowMismatch ident ty1' ty2' e' posOpt, nr3)
    | .rowKindMismatch id ty1 ty2 => do
        let (ty1', nr1) ← (match ty1 with
                           | none => pure (none, nameReg)
                           | some x => do
                               let (x', nr) ← reportingToType (fuel + 1) st nameReg x
                               pure (some x', nr))
        let (ty2', nr2) ← (match ty2 with
                           | none => pure (none, nr1)
                           | some x => do
                               let (x', nr) ← reportingToType (fuel + 1) st nr1 x
                               pure (some x', nr))
        pure (.rowKindMismatch id ty1' ty2' posOpt, nr2)
    | .constMismatch c1 c2 => do
        let (ty1', nr1) ← reportingToType (fuel + 1) st nameReg (.constant c1)
        let (ty2', nr2) ← reportingToType (fuel + 1) st nr1 (.constant c2)
        pure (.typeMismatch ty1' ty2' posOpt, nr2)
    | .withConst c ty => do
        let (ty1', nr1) ← reportingToType (fuel + 1) st nameReg (.constant c)
        let (ty2', nr2) ← reportingToType (fuel + 1) st nr1 ty
        pure (.typeMismatch ty1' ty2' posOpt, nr2)
    | .illformedFlatType rt => pure (.illformedType (.flat rt), nameReg)
    | .illformedType tyw => do
        let (ty', nr1) ← reportingToType (fuel + 1) st nameReg tyw
        pure (.illformedType ty', nr1)
    | .missingRow id tyw1 tyw2 => do
        let (ty1', nr1) ← reportingToType (fuel + 1) st nameReg tyw1
        let (ty2', nr2) ← reportingToType (fuel + 1) st nr1 tyw2
        pure (.missingRow id ty1' ty2' posOpt, nr2)
    | .extraRow id tyw1 tyw2 => do
        let (ty1', nr1) ← reportingToType (fuel + 1) st nameReg tyw1
        let (ty2', nr2) ← reportingToType (fuel + 1) st nr1 tyw2
        pure (.extraRow id ty1' ty2' posOpt, nr2)
    | .illformedRow tyw => do
        let (ty', nr1) ← reportingToType (fuel + 1) st nameReg tyw
        pure (.illformedType ty', nr1)
    | .rowConflict id tyw l r => do
        let (tyw', nr1) ← (match tyw with
                           | none => pure (none, nameReg)
                           | some x => do
                               let (x', nr) ← reportingToType (fuel + 1) st nameReg x
                               pure (some x', nr))
        let (l', nr2) ← reportingToType (fuel + 1) st nr1 l
        let (r', nr3) ← reportingToType (fuel + 1) st nr2 r
        pure (.rowConflict id tyw' l' r' posOpt, nr3)
    | .unboundTypeVariable ident => pure (.unboundTypeVariable ident posOpt, nameReg)
    | .domainMismatch a b e => do
        let (expd, actual, path, errFinal) ← toTypePath (.domainMismatch a b e)
        let (expd', nr1) ← reportingToType (fuel + 1) st nameReg expd
        let (actual', nr2) ← reportingToType (fuel + 1) st nr1 actual
        let (errFinal', nr3) ← toTypecheckErrAux fuel st nr2 none errFinal
        pure (.arrowTypeMismatch expd' actual' path errFinal' posOpt, nr3)
    | .codomainMismatch a b e => do
        let (expd, actual, path, errFinal) ← toTypePath (.codomainMismatch a b e)
        let (expd', nr1) ← reportingToType (fuel + 1) st nameReg expd
        let (actual', nr2) ← reportingToType (fuel + 1) st nr1 actual
        let (errFinal', nr3) ← toTypecheckErrAux fuel st nr2 none errFinal
        pure (.arrowTypeMismatch expd' actual' path errFinal' posOpt, nr3)

/-- `UnifError::to_typecheck_err`: the wrapper starting from an empty name
registry. -/
def toTypecheckErr (fuel : Nat) (st : UState) (posOpt : Option RawSpan) (err : UnifError) :
    Option TypecheckError :=
  (toTypecheckErrAux fuel st NameReg.new posOpt err).map (·.1)

/-- The `forall`-stripping loop of `instantiate_foralls_with` (the entry
point chases the root first, see `instantiateForallsWith`). -/
def stripForalls : Nat → UState → TypeWrapper → (Nat → TypeWrapper) →
    Option (TypeWrapper × UState)
  | 0, _, _, _ => none
  | fuel + 1, st, ty, f =>
    match ty with
    | .concrete (.forallT id body) =>
        let (freshId, table1) := newVar st.table
        let st1 := { st with table := table1, names := assocNatInsert st.names freshId id }
        stripForalls fuel st1 (body.subst id (f freshId)) f
    | t => some (t, st)

/-- `instantiate_foralls_with`: strip head `forall`s, substituting each
bound variable by `f fresh`. -/
def instantiateForallsWith (fuel : Nat) (st : UState) (ty : TypeWrapper)
    (f : Nat → TypeWrapper) : Option (TypeWrapper × UState) :=
  match (match ty with
         | .ptr p => getRoot fuel st.table p
         | t => some t) with
  | none => none
  | some ty' => stripForalls fuel st ty' f

/-- `apparent_type`: the type recorded for a let-bound expression. -/
def apparentType (t : Term) (table : UnifTable) (strict : Bool) : TypeWrapper × UnifTable :=
  match t with
  | .assume ty _ _ => (toTypewrapper ty, table)
  | .promise ty _ _ => (toTypewrapper ty, table)
  | _ =>
      if strict then
        let (v, table1) := newVar table
        (.ptr v, table1)
      else (.concrete .dyn, table)

/-- The typing environments (`Envs`): a read-only global and a local
layer. -/
structure Envs where
  globalEnv : List (Ident × TypeWrapper)
  localEnv : List (Ident × TypeWrapper)

/-- Lookup in a typing environment layer. -/
def envLookup : List (Ident × TypeWrapper) → Ident → Option TypeWrapper
  | [], _ => none
  | (k, v) :: r, x => if k = x then some v else envLookup r x

/-- `Envs::get`: local layer first, then global. -/
def Envs.get (e : Envs) (x : Ident) : Option TypeWrapper :=
  match envLookup e.localEnv x with
  | some t => some t
  | none => envLookup e.globalEnv x

/-- `Envs::insert`: bind in the local layer. -/
def Envs.insert (e : Envs) (x : Ident) (t : TypeWrapper) : Envs :=
  { e with localEnv := (x, t) :: e.localEnv }

/-- The import resolver interface (`ImportResolver::get`), a partial map
from file ids to already-parsed terms. -/
abbrev Resolver := Nat → Option RichTerm

/-- The helper wrapping `unify(..).map_err(|err| err.to_typecheck_err(state,
&rt.pos))`, the idiom used throughout `type_check_`. -/
def unifyTc (fuel : Nat) (st : UState) (strict : Bool) (t1 t2 : TypeWrapper)
    (pos : Option RawSpan) : Option (Except TypecheckError Unit × UState) :=
  match unify fuel st strict t1 t2 with
  | none => none
  | some (.error e, st1) =>
      match toTypecheckErr fuel st1 pos e with
      | none => none
      | some te => some (.error te, st1)
  | some (.ok (), st1) => some (.ok (), st1)

/-- The `envs.local.extend(..)` step of the `RecRecord` case: record every
field's apparent type, threading the table. -/
def extendWithApparent : List (Ident × RichTerm) → List (Ident × TypeWrapper) → Bool →
    UnifTable → List (Ident × TypeWrapper) × UnifTable
  | [], acc, _, table => (acc, table)
  | (id, rt) :: rest, acc, strict, table =>
      let (ty, table1) := apparentType rt.term table strict
      extendWithApparent rest ((id, ty) :: acc) strict table1

mutual

/-- `type_check_`: check a term against a type wrapper. -/
def typeCheckF : Nat → Resolver → Envs → Bool → RichTerm → TypeWrapper → UState →
    Option (Except TypecheckError Unit × UState)
  | 0, _, _, _, _, _, _ => none
  | fuel + 1, resolver, envs, strict, rt, ty, st =>
    match rt.term with
    | .bool _ => unifyTc fuel st strict ty (.concrete .bool) rt.pos
    | .num _ => unifyTc fuel st strict ty (.concrete .num) rt.pos
    | .str _ => unifyTc fuel st strict ty (.concrete .str) rt.pos
    | .strChunks chunks =>
        match unifyTc fuel st strict ty (.concrete .str) rt.pos with
        | none => none
        | some (.error e, st1) => some (.error e, st1)
        | some (.ok (), st1) => typeCheckChunksF fuel resolver envs strict chunks st1
    | .funT x t =>
        let (srcV, table1) := newVar st.table
        let (trgV, table2) := newVar table1
        let src := TypeWrapper.ptr srcV
        let trg := TypeWrapper.ptr trgV
        let arr := TypeWrapper.concrete (.arrow src trg)
        match unifyTc fuel { st with table := table2 } strict ty arr rt.pos with
        | none => none
        | some (.error e, st2) => some (.error e, st2)
        | some (.ok (), st2) => typeCheckF fuel resolver (envs.insert x src) strict t trg st2
    | .listT terms =>
        match unifyTc fuel st strict ty (.concrete .listT) rt.pos with
        | none => none
        | some (.error e, st1) => some (.error e, st1)
        | some (.ok (), st1) => typeCheckListF fuel resolver envs terms st1
    | .lbl _ => unifyTc fuel st strict ty (.concrete .dyn) rt.pos
    | .letT x re body =>
        let (tyLet, table1) := apparentType re.term st.table strict
        match typeCheckF fuel resolver envs strict re tyLet { st with table := table1 } with
        | none => none
        | some (.error e, st2) => some (.error e, st2)
        | some (.ok (), st2) =>
            typeCheckF fuel resolver (envs.insert x tyLet) strict body ty st2
    | .app e t =>
        let (srcV, table1) := newVar st.table
        let src := TypeWrapper.ptr srcV
        let arr := TypeWrapper.concrete (.arrow src ty)
        match typeCheckF fuel resolver envs strict e arr { st with table := table1 } with
        | none => none
        | some (.error e2, st2) => some (.error e2, st2)
        | some (.ok (), st2) => typeCheckF fuel resolver envs strict t src st2
    | .var x =>
        match envs.get x with
        | none => some (.error (.unboundIdentifier x rt.pos), st)
        | some xTy =>
            match instantiateForallsWith fuel st xTy TypeWrapper.ptr with
            | none => none
            | some (instantiated, st1) => unifyTc fuel st1 strict ty instantiated rt.pos
    | .enum id =>
        let (rowV, table1) := newVar st.table
        unifyTc fuel { st with table := table1 } strict ty
          (.concrete (.enum (.concrete (.rowExtend id none (.ptr rowV))))) rt.pos
    | .record statMap =>
        typeCheckRecordF fuel resolver envs strict false statMap ty st rt.pos
    | .recRecord statMap =>
        typeCheckRecordF fuel resolver envs strict true statMap ty st rt.pos
    | .op1 op t =>
        match getUopTypeF fuel resolver envs strict op st with
        | none => none
        | some (.error e, st1) => some (.error e, st1)
        | some (.ok tyOp, st1) =>
          let (srcV, table1) := newVar st1.table
          let src := TypeWrapper.ptr srcV
          let arr := TypeWrapper.concrete (.arrow src ty)
          match unifyTc fuel { st1 with table := table1 } strict arr tyOp rt.pos with
          | none => none
          | some (.error e, st2) => some (.error e, st2)
          | some (.ok (), st2) => typeCheckF fuel resolver envs strict t src st2
    | .op2 op e t =>
        match getBopTypeF fuel resolver envs strict op st with
        | none => none
        | some (.error e1, st1) => some (.error e1, st1)
        | some (.ok tyOp, st1) =>
          let (src1V, table1) := newVar st1.table
          let (src2V, table2) := newVar table1
          let src1 := TypeWrapper.ptr src1V
          let src2 := TypeWrapper.ptr src2V
          let arr := TypeWrapper.concrete (.arrow src1 (.concrete (.arrow src2 ty)))
          match unifyTc fuel { st1 with table := table2 } strict arr tyOp rt.pos with
          | none => none
          | some (.error e2, st2) => some (.error e2, st2)
          | some (.ok (), st2) =>
            match typeCheckF fuel resolver envs strict e src1 st2 with
            | none => none
            | some (.error e3, st3) => some (.error e3, st3)
            | some (.ok (), st3) => typeCheckF fuel resolver envs strict t src2 st3
    | .promise ty2 _ t =>
        let tyw2 := toTypewrapper ty2
        match instantiateForallsWith fuel st tyw2 TypeWrapper.constant with
        | none => none
        | some (instantiated, st1) =>
          match unifyTc fuel st1 strict ty (toTypewrapper ty2) rt.pos with
          | none => none
          | some (.error e, st2) => some (.error e, st2)
          | some (.ok (), st2) => typeCheckF fuel resolver envs true t instantiated st2
    | .assume ty2 _ t =>
        match unifyTc fuel st strict ty (toTypewrapper ty2) rt.pos with
        | none => none
        | some (.error e, st1) => some (.error e, st1)
        | some (.ok (), st1) =>
            let (v, table1) := newVar st1.table
            typeCheckF fuel resolver envs false t (.ptr v) { st1 with table := table1 }
    | .sym _ => unifyTc fuel st strict ty (.concrete .sym) rt.pos
    | .wrapped _ t => typeCheckF fuel resolver envs strict t ty st
    | .defaultValue t => typeCheckF fuel resolver envs strict t ty st
    | .contractWithDefault _ _ t => typeCheckF fuel resolver envs strict t ty st
    | .docstring _ t => typeCheckF fuel resolver envs strict t ty st
    | .contract _ _ => some (.ok (), st)
    | .importE _ => unifyTc fuel st strict ty (.concrete .dyn) rt.pos
    | .resolvedImport fileId =>
        match resolver fileId with
        | none => none
        | some t =>
            match typeCheckInEnvF fuel resolver envs.globalEnv t with
            | none => none
            | some (.error e) => some (.error e, st)
            | some (.ok _) => some (.ok (), st)

/-- The `StrChunks` loop of `type_check_`: expression chunks are checked
against `Dyn` in the current mode. -/
def typeCheckChunksF : Nat → Resolver → Envs → Bool → List StrChunk → UState →
    Option (Except TypecheckError Unit × UState)
  | 0, _, _, _, _, _ => none
  | fuel + 1, resolver, envs, strict, chunks, st =>
    match chunks with
    | [] => some (.ok (), st)
    | .literal _ :: rest => typeCheckChunksF fuel resolver envs strict rest st
    | .expr t :: rest =>
        match typeCheckF fuel resolver envs strict t (.concrete .dyn) st with
        | none => none
        | some (.error e, st1) => some (.error e, st1)
        | some (.ok (), st1) => typeCheckChunksF fuel resolver envs strict rest st1

/-- The `List` loop of `type_check_`: elements are checked against `Dyn` in
non-strict mode. -/
def typeCheckListF : Nat → Resolver → Envs → List RichTerm → UState →
    Option (Except TypecheckError Unit × UState)
  | 0, _, _, _, _ => none
  | fuel + 1, resolver, envs, terms, st =>
    match terms with
    | [] => some (.ok (), st)
    | t :: rest =>
        match typeCheckF fuel resolver envs false t (.concrete .dyn) st with
        | none => none
        | some (.error e, st1) => some (.error e, st1)
        | some (.ok (), st1) => typeCheckListF fuel resolver envs rest st1

/-- The shared `Record`/`RecRecord` case of `type_check_`. -/
def typeCheckRecordF : Nat → Resolver → Envs → Bool → Bool → List (Ident × RichTerm) →
    TypeWrapper → UState → Option RawSpan → Option (Except TypecheckError Unit × UState)
  | 0, _, _, _, _, _, _, _, _ => none
  | fuel + 1, resolver, envs, strict, isRec, statMap, ty, st, pos =>
    let (envs1, table1) :=
      if isRec then
        let (ext, tbl) := extendWithApparent statMap envs.localEnv strict st.table
        ({ envs with localEnv := ext }, tbl)
      else (envs, st.table)
    let st1 := { st with table := table1 }
    match (match ty with
           | .ptr p => getRoot (fuel + 1) st1.table p
           | t => some t) with
    | none => none
    | some (.concrete (.dynRecord recTy)) =>
        typeCheckFieldsDynF fuel resolver envs1 strict statMap recTy st1
    | some _ =>
        match typeCheckRecordRowF fuel resolver envs1 strict isRec statMap
                (.concrete .rowEmpty) st1 with
        | none => none
        | some (.error e, st2) => some (.error e, st2)
        | some (.ok row, st2) =>
            unifyTc fuel st2 strict ty (.concrete (.staticRecord row)) pos

/-- The dynamic-record branch of the record case: each field is checked
against the single field type. -/
def typeCheckFieldsDynF : Nat → Resolver → Envs → Bool → List (Ident × RichTerm) →
    TypeWrapper → UState → Option (Except TypecheckError Unit × UState)
  | 0, _, _, _, _, _, _ => none
  | fuel + 1, resolver, envs, strict, fields, recTy, st =>
    match fields with
    | [] => some (.ok (), st)
    | (_, t) :: rest =>
        match typeCheckF fuel resolver envs strict t recTy st with
        | none => none
        | some (.error e, st1) => some (.error e, st1)
        | some (.ok (), st1) => typeCheckFieldsDynF fuel resolver envs strict rest recTy st1

/-- The static-record fold of the record case, building the row type.  For a
recursive record the field type comes from the pre-populated environment
(the source `unwrap`s the lookup). -/
def typeCheckRecordRowF : Nat → Resolver → Envs → Bool → Bool → List (Ident × RichTerm) →
    TypeWrapper → UState → Option (Except TypecheckError TypeWrapper × UState)
  | 0, _, _, _, _, _, _, _ => none
  | fuel + 1, resolver, envs, strict, isRec, fields, acc, st =>
    match fields with
    | [] => some (.ok acc, st)
    | (id, field) :: rest =>
        match (if isRec then
                 match envs.get id with
                 | some t => some (t, st.table)
                 | none => none
               else
                 let (v, table1) := newVar st.table
                 some (TypeWrapper.ptr v, table1)) with
        | none => none
        | some (tyF, table1) =>
          match typeCheckF fuel resolver envs strict field tyF { st with table := table1 } with
          | none => none
          | some (.error e, st2) => some (.error e, st2)
          | some (.ok (), st2) =>
              typeCheckRecordRowF fuel resolver envs strict isRec rest
                (.concrete (.rowExtend id (some tyF) acc)) st2

/-- The loop over `Switch` branch bodies in `get_uop_type`. -/
def switchCasesF : Nat → Resolver → Envs → Bool → List (Ident × RichTerm) → TypeWrapper →
    UState → Option (Except TypecheckError Unit × UState)
  | 0, _, _, _, _, _, _ => none
  | fuel + 1, resolver, envs, strict, cases, res, st =>
    match cases with
    | [] => some (.ok (), st)
    | (_, exp) :: rest =>
        match typeCheckF fuel resolver envs strict exp res st with
        | none => none
        | some (.error e, st1) => some (.error e, st1)
        | some (.ok (), st1) => switchCasesF fuel resolver envs strict rest res st1

/-- `get_uop_type`: the (polymorphic) type of a unary operator. -/
def getUopTypeF : Nat → Resolver → Envs → Bool → UnaryOp → UState →
    Option (Except TypecheckError TypeWrapper × UState)
  | 0, _, _, _, _, _ => none
  | fuel + 1, resolver, envs, strict, op, st =>
    match op with
    | .ite =>
        let (b, table1) := newVar st.table
        let branches := TypeWrapper.ptr b
        some (.ok (.concrete (.arrow (.concrete .bool)
            (.concrete (.arrow branches (.concrete (.arrow branches branches)))))),
          { st with table := table1 })
    | .isZero =>
        some (.ok (.concrete (.arrow (.concrete .num) (.concrete .bool))), st)
    | .isNum | .isBool | .isStr | .isFun | .isList | .isRecord =>
        let (v, table1) := newVar st.table
        some (.ok (.concrete (.arrow (.ptr v) (.concrete .bool))), { st with table := table1 })
    | .blame =>
        let (v, table1) := newVar st.table
        some (.ok (.concrete (.arrow (.concrete .dyn) (.ptr v))), { st with table := table1 })
    | .pol =>
        some (.ok (.concrete (.arrow (.concrete .dyn) (.concrete .bool))), st)
    | .embed id =>
        let (v, table1) := newVar st.table
        let row := TypeWrapper.ptr v
        match constraintF fuel { st with table := table1 } row id with
        | none => none
        | some (.error _, _) => none
        | some (.ok (), st1) =>
            some (.ok (.concrete (.arrow (.concrete (.enum row))
                (.concrete (.enum (.concrete (.rowExtend id none row)))))), st1)
    | .switch cases dflt =>
        let (resV, table1) := newVar st.table
        let res := TypeWrapper.ptr resV
        match switchCasesF fuel resolver envs strict cases res { st with table := table1 } with
        | none => none
        | some (.error e, st1) => some (.error e, st1)
        | some (.ok (), st1) =>
          match dflt with
          | some e =>
              match typeCheckF fuel resolver envs strict e res st1 with
              | none => none
              | some (.error te, st2) => some (.error te, st2)
              | some (.ok (), st2) =>
                  let (rv, table2) := newVar st2.table
                  some (.ok (.concrete (.arrow (.concrete (.enum (.ptr rv))) res)),
                    { st2 with table := table2 })
          | none =>
              let row := cases.foldl
                (fun acc x => TypeWrapper.concrete (.rowExtend x.1 none acc))
                (.concrete .rowEmpty)
              some (.ok (.concrete (.arrow (.concrete (.enum row)) res)), st1)
    | .changePolarity | .goDom | .goCodom | .tag _ =>
        some (.ok (.concrete (.arrow (.concrete .dyn) (.concrete .dyn))), st)
    | .wrap =>
        some (.ok (.concrete (.arrow (.concrete .sym)
            (.concrete (.arrow (.concrete .dyn) (.concrete .dyn))))), st)
    | .staticAccess id =>
        let (rowV, table1) := newVar st.table
        let (resV, table2) := newVar table1
        let res := TypeWrapper.ptr resV
        some (.ok (.concrete (.arrow
            (.concrete (.staticRecord (.concrete (.rowExtend id (some res) (.ptr rowV)))))
            res)), { st with table := table2 })
    | .mapRec f =>
        let (aV, table1) := newVar st.table
        let (bV, table2) := newVar table1
        let a := TypeWrapper.ptr aV
        let b := TypeWrapper.ptr bV
        let fType := TypeWrapper.concrete (.arrow (.concrete .str) (.concrete (.arrow a b)))
        match typeCheckF fuel resolver envs strict f fType { st with table := table2 } with
        | none => none
        | some (.error e, st1) => some (.error e, st1)
        | some (.ok (), st1) =>
            some (.ok (.concrete (.arrow (.concrete (.dynRecord a))
                (.concrete (.dynRecord b)))), st1)
    | .seq | .deepSeq =>
        let (fstV, table1) := newVar st.table
        let (sndV, table2) := newVar table1
        some (.ok (.concrete (.arrow (.ptr fstV)
            (.concrete (.arrow (.ptr sndV) (.ptr sndV))))), { st with table := table2 })
    | .listHead =>
        some (.ok (.concrete (.arrow (.concrete .listT) (.concrete .dyn))), st)
    | .listTail =>
        some (.ok (.concrete (.arrow (.concrete .listT) (.concrete .listT))), st)
    | .listLength =>
        some (.ok (.concrete (.arrow (.concrete .listT) (.concrete .num))), st)
    | .chunksConcat _ _ => none
    | .fieldsOf =>
        let (v, table1) := newVar st.table
        some (.ok (.concrete (.arrow (.concrete (.staticRecord (.ptr v)))
            (.concrete .listT))), { st with table := table1 })

/-- `get_bop_type`: the (polymorphic) type of a binary operator. -/
def getBopTypeF : Nat → Resolver → Envs → Bool → BinaryOp → UState →
    Option (Except TypecheckError TypeWrapper × UState)
  | 0, _, _, _, _, _ => none
  | fuel + 1, resolver, envs, strict, op, st =>
    match op with
    | .plus =>
        some (.ok (.concrete (.arrow (.concrete .num)
            (.concrete (.arrow (.concrete .num) (.concrete .num))))), st)
    | .plusStr =>
        some (.ok (.concrete (.arrow (.concrete .str)
            (.concrete (.arrow (.concrete .str) (.concrete .str))))), st)
    | .unwrap =>
        some (.ok (.concrete (.arrow (.concrete .sym)
            (.concrete (.arrow (.concrete .dyn)
              (.concrete (.arrow (.concrete .dyn) (.concrete .dyn))))))), st)
    | .eq =>
        let (aV, table1) := newVar st.table
        let (bV, table2) := newVar table1
        some (.ok (.concrete (.arrow (.ptr aV)
            (.concrete (.arrow (.ptr bV) (.concrete .bool))))), { st with table := table2 })
    | .dynAccess =>
        let (resV, table1) := newVar st.table
        let res := TypeWrapper.ptr resV
        some (.ok (.concrete (.arrow (.concrete .str)
            (.concrete (.arrow (.concrete (.dynRecord res)) res)))), { st with table := table1 })
    | .dynExtend t =>
        let (resV, table1) := newVar st.table
        let res := TypeWrapper.ptr resV
        match typeCheckF fuel resolver envs strict t res { st with table := table1 } with
        | none => none
        | some (.error e, st1) => some (.error e, st1)
        | some (.ok (), st1) =>
            some (.ok (.concrete (.arrow (.concrete .str)
                (.concrete (.arrow (.concrete (.dynRecord res))
                  (.concrete (.dynRecord res)))))), st1)
    | .dynRemove =>
        let (resV, table1) := newVar st.table
        let res := TypeWrapper.ptr resV
        some (.ok (.concrete (.arrow (.concrete .str)
            (.concrete (.arrow (.concrete (.dynRecord res))
              (.concrete (.dynRecord res)))))), { st with table := table1 })
    | .hasField =>
        some (.ok (.concrete (.arrow
            (.concrete (.arrow (.concrete .str) (.concrete .dyn)))
            (.concrete .bool))), st)
    | .listConcat =>
        some (.ok (.concrete (.arrow (.concrete .listT)
            (.concrete (.arrow (.concrete .listT) (.concrete .listT))))), st)
    | .listMap =>
        let (srcV, table1) := newVar st.table
        let (tgtV, table2) := newVar table1
        some (.ok (.concrete (.arrow (.concrete (.arrow (.ptr srcV) (.ptr tgtV)))
            (.concrete (.arrow (.concrete .listT) (.concrete .listT))))),
          { st with table := table2 })
    | .listElemAt =>
        some (.ok (.concrete (.arrow (.concrete .listT)
            (.concrete (.arrow (.concrete .num) (.concrete .dyn))))), st)
    | .merge =>
        some (.ok (.concrete (.arrow (.concrete .dyn)
            (.concrete (.arrow (.concrete .dyn) (.concrete .dyn))))), st)

/-- `type_check_in_env`: typecheck a term in a fresh unification state,
given a global typing environment.  Used directly for imports. -/
def typeCheckInEnvF : Nat → Resolver → List (Ident × TypeWrapper) → RichTerm →
    Option (Except TypecheckError Types)
  | 0, _, _, _ => none
  | fuel + 1, resolver, global, t =>
    let st0 : UState := ⟨[], [], []⟩
    let (v, table1) := newVar st0.table
    match typeCheckF fuel resolver ⟨global, []⟩ false t (.ptr v) { st0 with table := table1 } with
    | none => none
    | some (.error e, _) => some (.error e)
    | some (.ok (), st1) =>
        match toType fuel st1.table (.ptr v) with
        | none => none
        | some ty => some (.ok ty)

end

/-- `type_check`, taking the already-built global typing environment.  (The
source builds that environment with `Envs::mk_global` from the evaluator's
global term environment, which lives outside the sources; `mk_global` calls
`apparent_type` in non-strict mode, so it never touches the freshly-created
unification table, and the rest of `type_check` coincides with
`type_check_in_env`.) -/
def typeCheck (fuel : Nat) (resolver : Resolver) (global : List (Ident × TypeWrapper))
    (t : RichTerm) : Option (Except TypecheckError Types) :=
  typeCheckInEnvF fuel resolver global t

/-! ## The operation engine (`src/src/operation.rs`) -/

/-- Modelled from the spec: the evaluation environment (`eval.rs` is outside
the sources) maps identifiers to handles into a thunk heap that is not
itself modelled; the operation engine only carries environments around and
extends them with fresh bindings. -/
abbrev Environment := List (Ident × Nat)

/-- A closure: a term paired with its environment (`eval::Closure`). -/
structure Closure where
  body : RichTerm
  env : Environment

/-- Modelled from the spec: `Closure::atomic_closure` pairs a term with the
empty environment. -/
def Closure.atomic_closure (rt : RichTerm) : Closure := ⟨rt, []⟩

/-- A string chunk whose expressions are closures (`StrChunk<Closure>`). -/
inductive StrChunkC where
  | literal (s : String)
  | expr (e : Closure)

/-- Unary operators over closures (`UnaryOp<Closure>`), as dispatched by
`process_unary_operation`.  (`isRecord` appears in the `typecheck.rs`
revision but has no arm in this `operation.rs` revision; its arm below is
modelled from the spec's predicate table.) -/
inductive UnaryOpC where
  | ite
  | isZero
  | isNum
  | isBool
  | isStr
  | isFun
  | isList
  | isRecord
  | blame
  | embed (id : Ident)
  | switch (cases : List (Ident × Closure)) (dflt : Option Closure)
  | changePolarity
  | pol
  | goDom
  | goCodom
  | tag (s : String)
  | wrap
  | staticAccess (id : Ident)
  | fieldsOf
  | mapRec (f : Closure)
  | seq
  | deepSeq
  | listHead
  | listTail
  | listLength
  | chunksConcat (acc : String) (tail : List StrChunkC)

/-- Binary operators over closures (`BinaryOp<Closure>`). -/
inductive BinaryOpC where
  | plus
  | plusStr
  | unwrap
  | eq
  | dynAccess
  | dynExtend (t : Closure)
  | dynRemove
  | hasField
  | listConcat
  | listMap
  | listElemAt
  | merge

/-- An operation continuation as stored on the stack (`OperationCont`). -/
inductive OperationCont where
  | op1 (op : UnaryOpC) (argPos : Option RawSpan)
  | op2First (op : BinaryOpC) (sndClos : Closure) (fstPos : Option RawSpan) (prevStrict : Bool)
  | op2Second (op : BinaryOpC) (fstClos : Closure) (fstPos : Option RawSpan)
      (sndPos : Option RawSpan) (prevStrict : Bool)

/-- Modelled from the spec: stack frames (`stack.rs` is outside the
sources); §3 lists pending-argument frames, thunk-update frames and
operation continuations. -/
inductive StackFrame where
  | arg (c : Closure) (pos : Option RawSpan)
  | thunkUpd (handle : Nat)
  | opCont (cont : OperationCont) (callStackLen : Nat) (pos : Option RawSpan)

/-- Modelled from the spec: the evaluation stack. -/
abbrev Stack := List StackFrame

/-- Modelled from the spec: `Stack::count_args` counts the pending argument
frames on top of the stack. -/
def countArgs : Stack → Nat
  | .arg _ _ :: rest => countArgs rest + 1
  | _ => 0

/-- Modelled from the spec: `Stack::pop_arg`. -/
def popArg : Stack → Option ((Closure × Option RawSpan) × Stack)
  | .arg c p :: rest => some ((c, p), rest)
  | _ => none

/-- Modelled from the spec: `Stack::pop_op_cont`. -/
def popOpCont : Stack → Option ((OperationCont × Nat × Option RawSpan) × Stack)
  | .opCont c n p :: rest => some ((c, n, p), rest)
  | _ => none

/-- Modelled from the spec: `Stack::push_op_cont`. -/
def pushOpCont (s : Stack) (c : OperationCont) (n : Nat) (p : Option RawSpan) : Stack :=
  .opCont c n p :: s

/-- Modelled from the spec: the call stack (`eval::CallStack`), opaque here
apart from truncation. -/
abbrev CallStack := List Ident

/-- `EvalError` (`error.rs` is outside the sources; the payload shapes are
read off the construction sites in `operation.rs`, and the remaining
variants from spec §7). -/
inductive EvalError where
  | blameError (l : Label) (cs : Option CallStack)
  | typeError (expected : String) (opName : String) (pos : Option RawSpan) (t : RichTerm)
  | notEnoughArgs (arity : Nat) (opName : String) (pos : Option RawSpan)
  | fieldMissing (field : String) (opName : String) (t : RichTerm) (pos : Option RawSpan)
  | unboundIdentifier (id : Ident) (pos : Option RawSpan)
  | infiniteRecursion (pos : Option RawSpan)
  | other (msg : String) (pos : Option RawSpan)

/-- Modelled from the spec: `closurize` (from `transformations.rs`, outside
the sources) allocates a fresh thunk for the body under its own environment,
binds a fresh identifier to the thunk in the caller environment, and returns
a variable referring to it.  The process-wide `FreshVariableCounter` is
threaded explicitly as `ctr`; the counter value doubles as the thunk handle
(the thunk heap itself is not modelled). -/
def closurize (ctr : Nat) (_body : RichTerm) (callerEnv : Environment)
    (_calleeEnv : Environment) : RichTerm × Environment × Nat :=
  let fresh := "%" ++ toString ctr
  (.mk (.var fresh) none, (fresh, ctr) :: callerEnv, ctr + 1)

/-- Rust `f64` truncation toward zero, at exact rationals. -/
def rustTrunc (q : Rat) : Int := Int.tdiv q.num (q.den : Int)

/-- Rust `f64::fract`, i.e. `self - self.trunc()`, at exact rationals. -/
def rustFract (q : Rat) : Rat := q - (rustTrunc q : Rat)

/-- The saturating Rust cast `f64 as usize` at exact rationals: truncation
toward zero, with negative values clamping to `0` and values beyond
`usize::MAX` clamping to `usize::MAX`. -/
def f64AsUsize (q : Rat) : Nat :=
  if q < 0 then 0 else min (rustTrunc q).toNat (2 ^ 64 - 1)

/-- Decimal-free rendering of a rational for error messages.  (Rust formats
an `f64` here; the numeric text inside messages is not load-bearing.) -/
def ratStr (q : Rat) : String := toString q.num ++ "/" ++ toString q.den

/-- Lookup in an association list keyed by `Ident`. -/
def assocIdent {α : Type} : List (Ident × α) → Ident → Option α
  | [], _ => none
  | (k, v) :: r, x => if k = x then some v else assocIdent r x

/-- `HashMap::remove` on a record field map, returning the removed value
and the remaining fields. -/
def recordRemove : List (Ident × RichTerm) → Ident →
    Option (RichTerm × List (Ident × RichTerm))
  | [], _ => none
  | (k, v) :: rest, id =>
      if k = id then some (v, rest)
      else (recordRemove rest id).map (fun er => (er.1, (k, v) :: er.2))

/-- Sorted insertion for `FieldsOf` (Rust `Vec::sort` on the key
strings). -/
def insertSorted (s : String) : List String → List String
  | [] => [s]
  | x :: xs => if s ≤ x then s :: x :: xs else x :: insertSorted s xs

/-- Sort a list of strings (Rust `Vec::sort`). -/
def sortStrings (l : List String) : List String := l.foldr insertSorted []

/-- `seq_terms` inside the `DeepSeq` case: chain `DeepSeq` applications over
the given terms; the source `expect`s a non-empty iterator (`none` models
that panic). -/
def seqTerms : List RichTerm → Environment → Option Closure
  | [], _ => none
  | first :: rest, env =>
      some ⟨rest.foldl (fun acc t => .mk (.app (.mk (.op1 .deepSeq t) none) acc) none)
              (.mk (.op1 .deepSeq first) none), env⟩

/-- The chunk-tail closurization inside `ChunksConcat`, threading the
environment and the fresh-variable counter left to right. -/
def closurizeChunks : List StrChunkC → Environment → Nat →
    List StrChunk × Environment × Nat
  | [], env, ctr => ([], env, ctr)
  | .literal s :: rest, env, ctr =>
      let (tl, env1, ctr1) := closurizeChunks rest env ctr
      (.literal s :: tl, env1, ctr1)
  | .expr c :: rest, env, ctr =>
      let (v, env1, ctr1) := closurize ctr c.body env c.env
      let (tl, env2, ctr2) := closurizeChunks rest env1 ctr1
      (.expr v :: tl, env2, ctr2)

/-- The element closurization of `ListConcat`, threading the target
environment and the counter. -/
def closurizeList : List RichTerm → Environment → Environment → Nat →
    List RichTerm × Environment × Nat
  | [], accEnv, _, ctr => ([], accEnv, ctr)
  | t :: rest, accEnv, calleeEnv, ctr =>
      let (v, accEnv1, ctr1) := closurize ctr t accEnv calleeEnv
      let (vs, accEnv2, ctr2) := closurizeList rest accEnv1 calleeEnv ctr1
      (v :: vs, accEnv2, ctr2)

/-- `process_unary_operation`: one step of a strict unary primitive applied
to an evaluated argument.  The result is `none` exactly on the source's
`panic!`/`expect` paths; otherwise it is the new closure or the evaluation
error, together with the updated stack and fresh-variable counter. -/
def processUnaryOperation (uOp : UnaryOpC) (clos : Closure) (argPos : Option RawSpan)
    (stack : Stack) (posOp : Option RawSpan) (ctr : Nat) :
    Option (Except EvalError Closure × Stack × Nat) :=
  let t := clos.body.term
  let pos := clos.body.pos
  let env := clos.env
  match uOp with
  | .ite =>
    (match t with
     | .bool b =>
        if countArgs stack ≥ 2 then
          match popArg stack with
          | none => none
          | some ((fstA, _), s1) =>
            match popArg s1 with
            | none => none
            | some ((sndA, _), s2) => some (.ok (if b then fstA else sndA), s2, ctr)
        else none
     | _ => some (.error (.typeError "Bool" "if" argPos (.mk t pos)), stack, ctr))
  | .isZero =>
    (match t with
     | .num n => some (.ok (Closure.atomic_closure (.mk (.bool (decide (n = 0))) none)), stack, ctr)
     | _ => some (.error (.typeError "Num" "isZero" argPos (.mk t pos)), stack, ctr))
  | .isNum =>
    (match t with
     | .num _ => some (.ok (Closure.atomic_closure (.mk (.bool true) none)), stack, ctr)
     | _ => some (.ok (Closure.atomic_closure (.mk (.bool false) none)), stack, ctr))
  | .isBool =>
    (match t with
     | .bool _ => some (.ok (Closure.atomic_closure (.mk (.bool true) none)), stack, ctr)
     | _ => some (.ok (Closure.atomic_closure (.mk (.bool false) none)), stack, ctr))
  | .isStr =>
    (match t with
     | .str _ => some (.ok (Closure.atomic_closure (.mk (.bool true) none)), stack, ctr)
     | _ => some (.ok (Closure.atomic_closure (.mk (.bool false) none)), stack, ctr))
  | .isFun =>
    (match t with
     | .funT _ _ => some (.ok (Closure.atomic_closure (.mk (.bool true) none)), stack, ctr)
     | _ => some (.ok (Closure.atomic_closure (.mk (.bool false) none)), stack, ctr))
  | .isList =>
    (match t with
     | .listT _ => some (.ok (Closure.atomic_closure (.mk (.bool true) none)), stack, ctr)
     | _ => some (.ok (Closure.atomic_closure (.mk (.bool false) none)), stack, ctr))
  | .isRecord =>
    (match t with
     | .record _ => some (.ok (Closure.atomic_closure (.mk (.bool true) none)), stack, ctr)
     | _ => some (.ok (Closure.atomic_closure (.mk (.bool false) none)), stack, ctr))
  | .blame =>
    (match t with
     | .lbl l => some (.error (.blameError l none), stack, ctr)
     | _ => some (.error (.typeError "Label" "blame" argPos (.mk t pos)), stack, ctr))
  | .embed _ =>
    (match t with
     | .enum e => some (.ok (Closure.atomic_closure (.mk (.enum e) none)), stack, ctr)
     | _ => some (.error (.typeError "Enum" "embed" argPos (.mk t pos)), stack, ctr))
  | .switch cases dflt =>
    (match t with
     | .enum en =>
        (match assocIdent cases en with
         | some c => some (.ok c, stack, ctr)
         | none =>
           match dflt with
           | some c => some (.ok c, stack, ctr)
           | none =>
               some (.error (.typeError "Enum" "switch" argPos (.mk (.enum en) pos)),
                 stack, ctr))
     | _ =>
        match dflt with
        | some c => some (.ok c, stack, ctr)
        | none => some (.error (.typeError "Enum" "switch" argPos (.mk t pos)), stack, ctr))
  | .changePolarity =>
    (match t with
     | .lbl l =>
        some (.ok (Closure.atomic_closure (.mk (.lbl { l with polarity := !l.polarity }) none)),
          stack, ctr)
     | _ => some (.error (.typeError "Label" "changePolarity" argPos (.mk t pos)), stack, ctr))
  | .pol =>
    (match t with
     | .lbl l => some (.ok (Closure.atomic_closure (.mk (.bool l.polarity) none)), stack, ctr)
     | _ => some (.error (.typeError "Label" "polarity" argPos (.mk t pos)), stack, ctr))
  | .goDom =>
    (match t with
     | .lbl l =>
        some (.ok (Closure.atomic_closure
          (.mk (.lbl { l with path := l.path ++ [.domain] }) none)), stack, ctr)
     | _ => some (.error (.typeError "Label" "goDom" argPos (.mk t pos)), stack, ctr))
  | .goCodom =>
    (match t with
     | .lbl l =>
        some (.ok (Closure.atomic_closure
          (.mk (.lbl { l with path := l.path ++ [.codomain] }) none)), stack, ctr)
     | _ => some (.error (.typeError "Label" "goCodom" argPos (.mk t pos)), stack, ctr))
  | .tag s =>
    (match t with
     | .lbl l =>
        some (.ok (Closure.atomic_closure (.mk (.lbl { l with tag := s }) none)), stack, ctr)
     | _ => some (.error (.typeError "Label" "tag" argPos (.mk t pos)), stack, ctr))
  | .wrap =>
    (match t with
     | .sym s =>
        some (.ok (Closure.atomic_closure
          (.mk (.funT "x" (.mk (.wrapped s (RichTerm.varRt "x")) none)) none)), stack, ctr)
     | _ => some (.error (.typeError "Sym" "wrap" argPos (.mk t pos)), stack, ctr))
  | .staticAccess id =>
    (match t with
     | .record staticMap =>
        (match recordRemove staticMap id with
         | some (e, _) => some (.ok ⟨e, env⟩, stack, ctr)
         | none =>
             some (.error (.fieldMissing id "(.)" (.mk (.record staticMap) pos) posOp),
               stack, ctr))
     | _ => some (.error (.typeError "Record" "field access" argPos (.mk t pos)), stack, ctr))
  | .fieldsOf =>
    (match t with
     | .record map =>
        let fields := sortStrings (map.map (·.1))
        some (.ok (Closure.atomic_closure
          (.mk (.listT (fields.map (fun id => RichTerm.mk (.str id) none))) none)), stack, ctr)
     | _ => some (.error (.typeError "Record" "fieldsOf" argPos (.mk t pos)), stack, ctr))
  | .mapRec f =>
    (match t with
     | .record rec =>
        let (fAsVar, env1, ctr1) := closurize ctr f.body env f.env
        let rec1 := rec.map (fun kv =>
          (kv.1, RichTerm.mk
            (.app (.mk (.app fAsVar (.mk (.str kv.1) none)) none) kv.2) none))
        some (.ok ⟨.mk (.record rec1) none, env1⟩, stack, ctr1)
     | _ => some (.error (.typeError "Record" "map on record" argPos (.mk t pos)), stack, ctr))
  | .seq =>
    if countArgs stack ≥ 1 then
      match popArg stack with
      | some ((next, _), s1) => some (.ok next, s1, ctr)
      | none => none
    else some (.error (.notEnoughArgs 2 "seq" posOp), stack, ctr)
  | .deepSeq =>
    let fallback : Option (Except EvalError Closure × Stack × Nat) :=
      if countArgs stack ≥ 1 then
        match popArg stack with
        | some ((next, _), s1) => some (.ok next, s1, ctr)
        | none => none
      else some (.error (.notEnoughArgs 2 "deepSeq" posOp), stack, ctr)
    (match t with
     | .record map =>
        if map.isEmpty then fallback
        else
          match seqTerms (map.map (·.2)) env with
          | some c => some (.ok c, stack, ctr)
          | none => none
     | .listT ts =>
        if ts.isEmpty then fallback
        else
          match seqTerms ts env with
          | some c => some (.ok c, stack, ctr)
          | none => none
     | _ => fallback)
  | .listHead =>
    (match t with
     | .listT ts =>
        (match ts with
         | headT :: _ => some (.ok ⟨headT, env⟩, stack, ctr)
         | [] => some (.error (.other "head: empty list" posOp), stack, ctr))
     | _ => some (.error (.typeError "List" "head" argPos (.mk t pos)), stack, ctr))
  | .listTail =>
    (match t with
     | .listT ts =>
        (match ts with
         | _ :: rest => some (.ok ⟨.mk (.listT rest) none, env⟩, stack, ctr)
         | [] => some (.error (.other "tail: empty list" posOp), stack, ctr))
     | _ => some (.error (.typeError "List" "tail" argPos (.mk t pos)), stack, ctr))
  | .listLength =>
    (match t with
     | .listT ts => some (.ok ⟨.mk (.num (ts.length : Rat)) none, []⟩, stack, ctr)
     | _ => some (.error (.typeError "List" "length" argPos (.mk t pos)), stack, ctr))
  | .chunksConcat acc tail =>
    (match t with
     | .str s =>
        let acc1 := acc ++ s
        (match tail.getLast? with
         | some next =>
            let tl := tail.dropLast
            let argC : Closure :=
              (match next with
               | .literal s2 => Closure.atomic_closure (.mk (.str s2) none)
               | .expr e => e)
            let (argClosure, env1, ctr1) := closurize ctr argC.body env argC.env
            let (tailClosure, env2, ctr2) := closurizeChunks tl env1 ctr1
            some (.ok ⟨.mk (.op1 (.chunksConcat acc1 tailClosure) argClosure) posOp, env2⟩,
              stack, ctr2)
         | none => some (.ok ⟨.mk (.str acc1) posOp, []⟩, stack, ctr))
     | _ =>
        some (.error (.typeError "String" "interpolated string" posOp (.mk t pos)), stack, ctr))

/-- Modelled from the spec: the merge engine (`merge.rs` is outside the
sources), spec §4.4.  Records merge key-wise: shared keys become lazy
`Merge` sub-terms over the closurized sides, distinct keys are carried
forward; identical scalars merge; a default value is overridden by the other
side; every other combination is a merge conflict (*Other*).  The
default-with-default and contract-accumulation refinements of §4.4 are
approximated as conflicts — no claim exercises the merge path. -/
def mergeSpec (rt1 : RichTerm) (env1 : Environment) (rt2 : RichTerm) (env2 : Environment)
    (posOp : Option RawSpan) (ctr : Nat) : Except EvalError Closure × Nat :=
  match rt1.term, rt2.term with
  | .defaultValue _, .defaultValue _ => (.error (.other "merge conflict" posOp), ctr)
  | .defaultValue _, _ => (.ok ⟨rt2, env2⟩, ctr)
  | _, .defaultValue _ => (.ok ⟨rt1, env1⟩, ctr)
  | .num n1, .num n2 =>
      if n1 = n2 then (.ok (Closure.atomic_closure (.mk (.num n1) none)), ctr)
      else (.error (.other "merge conflict" posOp), ctr)
  | .bool b1, .bool b2 =>
      if b1 = b2 then (.ok (Closure.atomic_closure (.mk (.bool b1) none)), ctr)
      else (.error (.other "merge conflict" posOp), ctr)
  | .str s1, .str s2 =>
      if s1 = s2 then (.ok (Closure.atomic_closure (.mk (.str s1) none)), ctr)
      else (.error (.other "merge conflict" posOp), ctr)
  | .record m1, .record m2 =>
      let step := m1.foldl
        (fun (st : List (Ident × RichTerm) × Environment × Nat) kv =>
          let (acc, envA, c) := st
          let (v1, envB, c1) := closurize c kv.2 envA env1
          match assocIdent m2 kv.1 with
          | some v2raw =>
              let (v2, envC, c2) := closurize c1 v2raw envB env2
              (acc ++ [(kv.1, RichTerm.mk (.op2 .merge v1 v2) none)], envC, c2)
          | none => (acc ++ [(kv.1, v1)], envB, c1))
        ([], [], ctr)
      let step2 := m2.foldl
        (fun (st : List (Ident × RichTerm) × Environment × Nat) kv =>
          let (acc, envA, c) := st
          match assocIdent m1 kv.1 with
          | some _ => (acc, envA, c)
          | none =>
              let (v2, envB, c1) := closurize c kv.2 envA env2
              (acc ++ [(kv.1, v2)], envB, c1))
        step
      (.ok ⟨.mk (.record step2.1) none, step2.2.1⟩, step2.2.2)
  | _, _ => (.error (.other "merge conflict" posOp), ctr)

/-- `process_binary_operation`: one step of a strict binary primitive over
two evaluated operands. -/
def processBinaryOperation (bOp : BinaryOpC) (fstClos : Closure) (fstPos : Option RawSpan)
    (clos : Closure) (sndPos : Option RawSpan) (stack : Stack) (posOp : Option RawSpan)
    (ctr : Nat) : Option (Except EvalError Closure × Stack × Nat) :=
  let t1 := fstClos.body.term
  let pos1 := fstClos.body.pos
  let env1 := fstClos.env
  let t2 := clos.body.term
  let pos2 := clos.body.pos
  let env2 := clos.env
  match bOp with
  | .plus =>
    (match t1, t2 with
     | .num n1, .num n2 =>
        some (.ok (Closure.atomic_closure (.mk (.num (n1 + n2)) none)), stack, ctr)
     | .num _, t2' =>
        some (.error (.typeError "Num" "+, 2nd argument" sndPos (.mk t2' pos2)), stack, ctr)
     | t1', _ =>
        some (.error (.typeError "Num" "+, 1st argument" fstPos (.mk t1' pos1)), stack, ctr))
  | .plusStr =>
    (match t1, t2 with
     | .str s1, .str s2 =>
        some (.ok (Closure.atomic_closure (.mk (.str (s1 ++ s2)) none)), stack, ctr)
     | .str _, t2' =>
        some (.error (.typeError "Str" "++, 2nd argument" sndPos (.mk t2' pos2)), stack, ctr)
     | t1', _ =>
        some (.error (.typeError "Str" "++, 1st argument" fstPos (.mk t1' pos1)), stack, ctr))
  | .unwrap =>
    (match t1 with
     | .sym s1 =>
        some (.ok
          (match t2 with
           | .wrapped s2 t =>
              if s1 = s2 then ⟨.mk (.funT "-invld" t) none, env2⟩
              else Closure.atomic_closure (.mk (.funT "x" (RichTerm.varRt "x")) none)
           | _ => Closure.atomic_closure (.mk (.funT "x" (RichTerm.varRt "x")) none)),
          stack, ctr)
     | t1' =>
        some (.error (.typeError "Sym" "unwrap, 1st argument" fstPos (.mk t1' pos1)),
          stack, ctr))
  | .eq =>
    (match t1, t2 with
     | .bool b1, .bool b2 =>
        some (.ok (Closure.atomic_closure (.mk (.bool (b1 == b2)) none)), stack, ctr)
     | .bool _, t2' =>
        some (.error (.typeError "Bool" "== [bool], 2nd argument" sndPos (.mk t2' pos2)),
          stack, ctr)
     | t1', _ =>
        some (.error (.typeError "Bool" "== [bool], 1st argument" fstPos (.mk t1' pos1)),
          stack, ctr))
  | .dynAccess =>
    (match t1 with
     | .str id =>
        (match t2 with
         | .record staticMap =>
            (match recordRemove staticMap id with
             | some (e, _) => some (.ok ⟨e, env2⟩, stack, ctr)
             | none =>
                some (.error (.fieldMissing id "(.$)" (.mk (.record staticMap) pos2) posOp),
                  stack, ctr))
         | t2' => some (.error (.typeError "Record" ".$" sndPos (.mk t2' pos2)), stack, ctr))
     | t1' => some (.error (.typeError "Str" ".$" fstPos (.mk t1' pos1)), stack, ctr))
  | .dynExtend cl =>
    (match t1 with
     | .str id =>
        (match t2 with
         | .record staticMap =>
            let (asVar, env2', ctr1) := closurize ctr cl.body env2 cl.env
            (match assocIdent staticMap id with
             | some _ =>
                some (.error (.other
                  ("$[ .. ]: tried to extend record with the field " ++ id ++
                    ", but it already exists") posOp), stack, ctr1)
             | none =>
                some (.ok ⟨.mk (.record ((id, asVar) :: staticMap)) none, env2'⟩, stack, ctr1))
         | t2' =>
            some (.error (.typeError "Record" "$[ .. ]" sndPos (.mk t2' pos2)), stack, ctr))
     | t1' => some (.error (.typeError "Str" "$[ .. ]" fstPos (.mk t1' pos1)), stack, ctr))
  | .dynRemove =>
    (match t1 with
     | .str id =>
        (match t2 with
         | .record staticMap =>
            (match recordRemove staticMap id with
             | none =>
                some (.error (.fieldMissing id "(-$)" (.mk (.record staticMap) pos2) posOp),
                  stack, ctr)
             | some (_, rest) =>
                some (.ok ⟨.mk (.record rest) none, env2⟩, stack, ctr))
         | t2' => some (.error (.typeError "Record" "-$" sndPos (.mk t2' pos2)), stack, ctr))
     | t1' => some (.error (.typeError "Str" "-$" fstPos (.mk t1' pos1)), stack, ctr))
  | .hasField =>
    (match t1 with
     | .str id =>
        (match t2 with
         | .record staticMap =>
            some (.ok (Closure.atomic_closure
              (.mk (.bool (assocIdent staticMap id).isSome) none)), stack, ctr)
         | t2' =>
            some (.error (.typeError "Record" "hasField, 2nd argument" sndPos (.mk t2' pos2)),
              stack, ctr))
     | t1' =>
        some (.error (.typeError "Str" "hasField, 1st argument" fstPos (.mk t1' pos1)),
          stack, ctr))
  | .listConcat =>
    (match t1, t2 with
     | .listT ts1, .listT ts2 =>
        let (ts1', envA, ctr1) := closurizeList ts1 [] env1 ctr
        let (ts2', envB, ctr2) := closurizeList ts2 envA env2 ctr1
        some (.ok ⟨.mk (.listT (ts1' ++ ts2')) none, envB⟩, stack, ctr2)
     | .listT _, t2' =>
        some (.error (.typeError "List" "@, 2nd operand" sndPos (.mk t2' pos2)), stack, ctr)
     | t1', _ =>
        some (.error (.typeError "List" "@, 1st operand" fstPos (.mk t1' pos1)), stack, ctr))
  | .listMap =>
    (match t2 with
     | .listT ts =>
        let f : RichTerm := .mk t1 pos1
        let (fAsVar, env2', ctr1) := closurize ctr f env2 env1
        let ts' := ts.map (fun u => RichTerm.mk (.app fAsVar u) none)
        some (.ok ⟨.mk (.listT ts') none, env2'⟩, stack, ctr1)
     | t2' =>
        some (.error (.typeError "List" "map, 2nd argument" sndPos (.mk t2' pos2)), stack, ctr))
  | .listElemAt =>
    (match t1, t2 with
     | .listT ts, .num n =>
        let nInt := f64AsUsize n
        if rustFract n ≠ 0 then
          some (.error (.other
            ("elemAt: expected the 2nd agument to be an integer, got the floating-point value "
              ++ ratStr n) posOp), stack, ctr)
        else if ts.length ≤ nInt then
          some (.error (.other
            ("elemAt: index out of bounds. Expected a value between 0 and "
              ++ toString ts.length ++ ", got " ++ toString nInt ++ ")") posOp), stack, ctr)
        else
          match ts.get? nInt with
          | some e => some (.ok ⟨e, env1⟩, stack, ctr)
          | none => none
     | .listT _, t2' =>
        some (.error (.typeError "Num" "elemAt, 2nd argument" sndPos (.mk t2' pos2)),
          stack, ctr)
     | t1', _ =>
        some (.error (.typeError "List" "elemAt, 1st argument" fstPos (.mk t1' pos1)),
          stack, ctr))
  | .merge =>
      let (res, ctr1) := mergeSpec (.mk t1 pos1) env1 (.mk t2 pos2) env2 posOp ctr
      some (res, stack, ctr1)

/-- `continuate_operation`: pop the next operation continuation and proceed;
`none` models the `expect` on an empty continuation stack.  The source
mutates `enriched_strict` through an `&mut bool`; here the current value
goes in and the possibly-restored value comes out. -/
def continuateOperation (clos : Closure) (stack : Stack) (callStack : CallStack)
    (enrichedStrict : Bool) (ctr : Nat) :
    Option (Except EvalError Closure × Stack × CallStack × Bool × Nat) :=
  match popOpCont stack with
  | none => none
  | some ((cont, csLen, pos), stack1) =>
    let callStack1 := callStack.take csLen
    match cont with
    | .op1 uOp argPos =>
        (processUnaryOperation uOp clos argPos stack1 pos ctr).map
          (fun rsc => (rsc.1, rsc.2.1, callStack1, enrichedStrict, rsc.2.2))
    | .op2First bOp sndClos fstPos prevStrict =>
        let stack2 := pushOpCont stack1
          (.op2Second bOp clos fstPos sndClos.body.pos prevStrict) csLen pos
        some (.ok sndClos, stack2, callStack1, enrichedStrict, ctr)
    | .op2Second bOp fstClos2 fstPos sndPos2 prevStrict =>
        (processBinaryOperation bOp fstClos2 fstPos clos sndPos2 stack1 pos ctr).map
          (fun rsc => (rsc.1, rsc.2.1, callStack1, prevStrict, rsc.2.2))

/-! ## The C embedding boundary (`src/nickel/src/capi.rs`)

`NULL`-able out-pointers are embedded as `Option`s of the pointee value: a
`none` pointer is `NULL`, and a `some` pointer carries the current pointee,
which the function may overwrite.  Each function returns its result code
together with the final pointee values. -/

/-- Modelled from the spec: the evaluated value tree of `nickel_lang_core`
(`Term` of the modern core, outside the sources), restricted to the shapes
the boundary predicates distinguish: null, bool, number, string, enum tag,
enum variant, record, array, or a not-yet-evaluated expression. -/
inductive CoreTerm where
  | null
  | bool (b : Bool)
  | num (q : Rat)
  | str (s : String)
  | enumTag (tag : String)
  | enumVariant (tag : String) (payload : Option CoreTerm)
  | record (fields : List (String × Option CoreTerm))
  | array (ts : List CoreTerm)
  | unevaluated

/-- The owned expression type behind `*mut nickel_expr` (`Expr { rt }`). -/
structure Expr where
  rt : CoreTerm

/-- Modelled from the spec: `Expr::is_null`. -/
def Expr.is_null (e : Expr) : Bool :=
  match e.rt with
  | .null => true
  | _ => false

/-- Modelled from the spec: `Expr::is_bool`. -/
def Expr.is_bool (e : Expr) : Bool :=
  match e.rt with
  | .bool _ => true
  | _ => false

/-- Modelled from the spec: `Expr::is_num`. -/
def Expr.is_num (e : Expr) : Bool :=
  match e.rt with
  | .num _ => true
  | _ => false

/-- Modelled from the spec: `Expr::is_str`. -/
def Expr.is_str (e : Expr) : Bool :=
  match e.rt with
  | .str _ => true
  | _ => false

/-- Modelled from the spec: `Expr::is_enum_tag`. -/
def Expr.is_enum_tag (e : Expr) : Bool :=
  match e.rt with
  | .enumTag _ => true
  | _ => false

/-- Modelled from the spec: `Expr::is_enum_variant`. -/
def Expr.is_enum_variant (e : Expr) : Bool :=
  match e.rt with
  | .enumVariant _ _ => true
  | _ => false

/-- Modelled from the spec: `Expr::is_record`. -/
def Expr.is_record (e : Expr) : Bool :=
  match e.rt with
  | .record _ => true
  | _ => false

/-- Modelled from the spec: `Expr::is_array`. -/
def Expr.is_array (e : Expr) : Bool :=
  match e.rt with
  | .array _ => true
  | _ => false

/-- Modelled from the spec: `Expr::is_value` — an evaluated expression is a
null, bool, number, string, enum, record, or array. -/
def Expr.is_value (e : Expr) : Bool :=
  match e.rt with
  | .unevaluated => false
  | _ => true

/-- Modelled from the spec: the boundary error payload (`Error`), opaque
diagnostics at this level. -/
structure CError where
  rendered : String

/-- `nickel_error`: an error slot with an optional payload (`inner`). -/
structure NickelError where
  inner : Option CError

/-- Modelled from the spec: a virtual-machine handle for continuing WHNF
evaluation; its internals live outside the sources. -/
def VM := Unit

/-- `nickel_virtual_machine`: a VM slot with an optional payload. -/
structure NickelVm where
  inner : Option VM

/-- `nickel_result`: the result code of fallible boundary functions. -/
inductive NickelResult where
  | ok
  | err
deriving DecidableEq

/-- Rust `bool as c_int`. -/
def cInt (b : Bool) : Int := if b then 1 else 0

/-- `nickel_expr_alloc`: a freshly allocated expression holds `Term::Null`. -/
def nickel_expr_alloc : Expr := ⟨.null⟩

/-- `nickel_expr_is_null`. -/
def nickel_expr_is_null (e : Expr) : Int := cInt e.is_null

/-- `nickel_expr_is_bool`. -/
def nickel_expr_is_bool (e : Expr) : Int := cInt e.is_bool

/-- `nickel_expr_is_number`. -/
def nickel_expr_is_number (e : Expr) : Int := cInt e.is_num

/-- `nickel_expr_is_str`. -/
def nickel_expr_is_str (e : Expr) : Int := cInt e.is_str

/-- `nickel_expr_is_enum_tag`. -/
def nickel_expr_is_enum_tag (e : Expr) : Int := cInt e.is_enum_tag

/-- `nickel_expr_is_enum_variant`. -/
def nickel_expr_is_enum_variant (e : Expr) : Int := cInt e.is_enum_variant

/-- `nickel_expr_is_record`. -/
def nickel_expr_is_record (e : Expr) : Int := cInt e.is_record

/-- `nickel_expr_is_array`. -/
def nickel_expr_is_array (e : Expr) : Int := cInt e.is_array

/-- `nickel_expr_is_value`. -/
def nickel_expr_is_value (e : Expr) : Int := cInt e.is_value

/-- `do_eval`: run an evaluation (whose outcome is the first argument — the
underlying `Context::eval_*` functions live outside the sources) and route
the result through the out-pointers: on success the expression is written to
a non-`NULL` `out_expr`; on failure the error is stored into a non-`NULL`
`out_error`.  Returns the result code and the final pointee values. -/
def do_eval (res : Except CError Expr) (outExpr : Option Expr)
    (outError : Option NickelError) :
    NickelResult × Option Expr × Option NickelError :=
  match res with
  | .ok expr => (.ok, outExpr.map (fun _ => expr), outError)
  | .error e => (.err, outExpr, outError.map (fun _ => ⟨some e⟩))

/-- `nickel_context_eval_deep`, parameterized by the outcome of the
underlying `ctx.eval_deep(src)`. -/
def nickel_context_eval_deep (res : Except CError Expr) (outExpr : Option Expr)
    (outError : Option NickelError) :
    NickelResult × Option Expr × Option NickelError :=
  do_eval res outExpr outError

/-- `nickel_context_eval_deep_for_export`, parameterized by the outcome of
the underlying `ctx.eval_deep_for_export(src)`. -/
def nickel_context_eval_deep_for_export (res : Except CError Expr) (outExpr : Option Expr)
    (outError : Option NickelError) :
    NickelResult × Option Expr × Option NickelError :=
  do_eval res outExpr outError

/-- `nickel_context_eval_shallow`, parameterized by the outcome of the
underlying `ctx.eval_shallow(src)`; additionally stores the virtual machine
into a non-`NULL` `out_virtual_machine` on success. -/
def nickel_context_eval_shallow (res : Except CError (VM × Expr)) (outExpr : Option Expr)
    (outVm : Option NickelVm) (outError : Option NickelError) :
    NickelResult × Option Expr × Option NickelVm × Option NickelError :=
  match res with
  | .ok (vm, expr) =>
      (.ok, outExpr.map (fun _ => expr), outVm.map (fun _ => ⟨some vm⟩), outError)
  | .error e => (.err, outExpr, outVm, outError.map (fun _ => ⟨some e⟩))

/-! ## Result classifiers and concrete inputs used by the statements -/

/-- Does a fueled unification result denote success? -/
def isOkU (r : Option (Except UnifError Unit × UState)) : Bool :=
  match r with
  | some (.ok _, _) => true
  | _ => false

/-- Does a fueled unification result denote a settled failure? -/
def isErrU (r : Option (Except UnifError Unit × UState)) : Bool :=
  match r with
  | some (.error _, _) => true
  | _ => false

/-- Does a fueled typechecking result denote success? -/
def isOkTc (r : Option (Except TypecheckError Unit × UState)) : Bool :=
  match r with
  | some (.ok _, _) => true
  | _ => false

/-- Does a fueled typechecking result denote an `ArrowTypeMismatch`
failure? -/
def isArrowMismatchTc (r : Option (Except TypecheckError Unit × UState)) : Bool :=
  match r with
  | some (.error (.arrowTypeMismatch _ _ _ _ _), _) => true
  | _ => false

/-- A resolver with no imports. -/
def emptyResolver : Resolver := fun _ => none

/-- Empty typing environments. -/
def emptyEnvs : Envs := ⟨[], []⟩

/-- The empty unification state. -/
def emptyUState : UState := ⟨[], [], []⟩

/-- The type `forall a. a -> a`. -/
def idForallType : Types := .forallT "a" (.arrow (.var "a") (.var "a"))

/-- The term `Promise(forall a. a -> a, fun x => x)` carrying a given
label. -/
def promiseIdTerm (l : Label) : RichTerm :=
  .mk (.promise idForallType l (.mk (.funT "x" (.mk (.var "x") none)) none)) none

/-- A unification state with one free variable whose row-constraint set
forbids `"a"`. -/
def c2State : UState := ⟨[none], [(0, ["a"])], []⟩

/-- The one-entry row `{a | []}`. -/
def rowWithA : TypeWrapper := .concrete (.rowExtend "a" none (.concrete .rowEmpty))

/-- A unification state with one free variable whose row-constraint set
forbids `"b"`. -/
def c6State : UState := ⟨[none], [(0, ["b"])], []⟩

/-- The row `{a | Ptr 0}` with a constrained variable tail. -/
def c6Left : TypeWrapper := .concrete (.rowExtend "a" none (.ptr 0))

/-- The closed row `{b, a}`. -/
def c6Right : TypeWrapper :=
  .concrete (.rowExtend "b" none (.concrete (.rowExtend "a" none (.concrete .rowEmpty))))

/-- The evaluated list `[10, 20]`. -/
def listTwoTerm : RichTerm := .mk (.listT [.mk (.num 10) none, .mk (.num 20) none]) none

/-- The operator type the checker assigns to `HasField`:
`(Str -> Dyn) -> Bool`. -/
def hasFieldOpType : TypeWrapper :=
  .concrete (.arrow (.concrete (.arrow (.concrete .str) (.concrete .dyn))) (.concrete .bool))

/-! ## Theorems -/

/-- C1 (counterexample): on `Promise(forall a. a -> a, fun x => x)`,
`type_check` succeeds but returns `Dyn`, not `forall a. a -> a`: entry is in
permissive mode, where `unify` is a no-op, so the top-level unification
variable stays unbound and `to_type` reads it back as `Dyn`. -/
theorem C1_counterexample_promise_id_gives_dyn :
    typeCheck 100 emptyResolver [] (promiseIdTerm ⟨"", true, []⟩) = some (.ok .dyn) ∧
      Types.dyn ≠ idForallType :=
  ⟨rfl, fun h => Types.noConfusion h⟩

/-- C1 (amended): for the input term `Promise(forall a. a -> a, fun x => x)`
(with any label), `type_check` succeeds, and — because it enters in
permissive mode where `unify` is a no-op, leaving the top-level unification
variable unbound — the type read back via `to_type` is `Dyn`. -/
theorem C1_promise_identity_typechecks_to_dyn (l : Label) :
    typeCheck 100 emptyResolver [] (promiseIdTerm l) = some (.ok .dyn) :=
  rfl

/-- C2: in strict mode, `unify_` of a free unification variable against any
concrete type binds the pointer unconditionally — the variable's
row-constraint set is not consulted, so the unification also succeeds when
the bound type is a row containing a forbidden identifier (the witness
instantiates exactly that situation), contradicting both the claimed
`RowConflict` failure and the claimed row well-formedness invariant. -/
theorem C2_ptr_bind_ignores_row_constraints (fuel : Nat) (table : UnifTable)
    (constr : RowConstr) (names : List (Nat × Ident)) (p : Nat) (s : AbsType)
    (h : table[p]? = some none) :
    unifyF (fuel + 1) ⟨table, constr, names⟩ (.ptr p) (.concrete s)
      = some (.ok (), ⟨table.set p (some (.concrete s)), constr, names⟩) := by
  simp [unifyF, getRoot, h]

/-- C2 (witness): with `Ptr 0` constrained to exclude `"a"`, unifying it
with the row `{a}` succeeds and records the forbidden binding. -/
theorem C2_ptr_bind_ignores_row_constraints_witness :
    unifyF 1 c2State (.ptr 0) rowWithA
      = some (.ok (), ⟨[some rowWithA], [(0, ["a"])], []⟩) :=
  C2_ptr_bind_ignores_row_constraints 0 [none] [(0, ["a"])] [] 0
    (.rowExtend "a" none (.concrete .rowEmpty)) rfl

/-- C3 (counterexample): dispatching `Ite` on a `Bool` argument with an
empty stack does not return an `EvalError` — the source `panic!`s ("An
If-Then-Else wasn't saturated"), aborting the host process, which the
embedding renders as `none`. -/
theorem C3_counterexample_ite_unsaturated_panics :
    processUnaryOperation .ite ⟨.mk (.bool true) none, []⟩ none [] none 0 = none :=
  rfl

/-- A unary step is `none` exactly for `Ite` on a `Bool` with fewer than
two pending arguments on the stack. -/
theorem unary_step_none_iff_unsaturated_ite :
    ∀ (uOp : UnaryOpC) (clos : Closure) (argPos : Option RawSpan) (stack : Stack)
      (posOp : Option RawSpan) (ctr : Nat),
      processUnaryOperation uOp clos argPos stack posOp ctr = none ↔
        (uOp = .ite ∧ (∃ b, clos.body.term = .bool b) ∧ countArgs stack < 2) := by
  intro uOp clos argPos stack posOp ctr
  obtain ⟨⟨t, pos⟩, env⟩ := clos
  cases uOp with
  | ite =>
    cases t
    case bool b =>
      rcases stack with _ | ⟨(⟨c1, p1⟩ | h1 | ⟨o1, n1, q1⟩),
        _ | ⟨(⟨c2, p2⟩ | h2 | ⟨o2, n2, q2⟩), s2⟩⟩ <;>
        simp [processUnaryOperation, RichTerm.term, RichTerm.pos, countArgs, popArg]
    all_goals simp [processUnaryOperation, RichTerm.term, RichTerm.pos]
  | seq =>
    rcases stack with _ | ⟨(⟨c1, p1⟩ | h1 | ⟨o1, n1, q1⟩), s1⟩ <;>
      simp [processUnaryOperation, RichTerm.term, RichTerm.pos, countArgs, popArg]
  | deepSeq =>
    cases t
    case record fields =>
      cases fields with
      | nil =>
        rcases stack with _ | ⟨(⟨c1, p1⟩ | h1 | ⟨o1, n1, q1⟩), s1⟩ <;>
          simp [processUnaryOperation, RichTerm.term, RichTerm.pos, countArgs, popArg,
            seqTerms]
      | cons kv rest =>
        simp [processUnaryOperation, RichTerm.term, RichTerm.pos, seqTerms]
    case listT ts =>
      cases ts with
      | nil =>
        rcases stack with _ | ⟨(⟨c1, p1⟩ | h1 | ⟨o1, n1, q1⟩), s1⟩ <;>
          simp [processUnaryOperation, RichTerm.term, RichTerm.pos, countArgs, popArg,
            seqTerms]
      | cons u rest =>
        simp [processUnaryOperation, RichTerm.term, RichTerm.pos, seqTerms]
    all_goals
      rcases stack with _ | ⟨(⟨c1, p1⟩ | h1 | ⟨o1, n1, q1⟩), s1⟩ <;>
        simp [processUnaryOperation, RichTerm.term, RichTerm.pos, countArgs, popArg]
  | switch cs dflt =>
    cases t
    case enum id =>
      rcases h : assocIdent cs id with _ | c <;>
        rcases dflt with _ | d <;>
        simp [processUnaryOperation, RichTerm.term, RichTerm.pos, h]
    all_goals
      rcases dflt with _ | d <;>
        simp [processUnaryOperation, RichTerm.term, RichTerm.pos]
  | _ =>
    cases t <;> simp [processUnaryOperation, RichTerm.term, RichTerm.pos] <;>
      (try split <;> simp)

/-- A binary step never aborts: `process_binary_operation` always returns a
closure or an `EvalError` (the only `panic` point, the indexing after the
bounds test in `ListElemAt`, is unreachable). -/
theorem processBinaryOperation_total (bOp : BinaryOpC) (fstClos : Closure)
    (fstPos : Option RawSpan) (clos : Closure) (sndPos : Option RawSpan)
    (stack : Stack) (posOp : Option RawSpan) (ctr : Nat) :
    (processBinaryOperation bOp fstClos fstPos clos sndPos stack posOp ctr).isSome
      = true := by
  obtain ⟨⟨t1, pos1⟩, env1⟩ := fstClos
  obtain ⟨⟨t2, pos2⟩, env2⟩ := clos
  cases bOp
  case listElemAt =>
    simp only [processBinaryOperation, RichTerm.term, RichTerm.pos]
    split
    case _ ts n =>
      split
      · simp
      · split
        · simp
        · next h1 h2 =>
          rcases hg : ts.get? (f64AsUsize n) with _ | e
          · rw [List.get?_eq_none] at hg
            omega
          · simp [hg]
    all_goals simp
  all_goals
    simp only [processBinaryOperation, RichTerm.term, RichTerm.pos]
    (repeat' split) <;> simp

/-- C3 (amended): every evaluation step of a primitive operation returns
either a new closure or an `EvalError`, with exactly one exception: a
binary step always does, and a unary step does except for dispatching
`Ite` on a `Bool` argument with fewer than two pending arguments on the
stack — there `process_unary_operation` executes the explicit
`panic!("An If-Then-Else wasn't saturated")` and aborts the host process
(`none` here), instead of yielding an `EvalError`. -/
theorem C3_step_aborts_iff_unsaturated_ite :
    (∀ (uOp : UnaryOpC) (clos : Closure) (argPos : Option RawSpan) (stack : Stack)
        (posOp : Option RawSpan) (ctr : Nat),
        processUnaryOperation uOp clos argPos stack posOp ctr = none ↔
          (uOp = .ite ∧ (∃ b, clos.body.term = .bool b) ∧ countArgs stack < 2)) ∧
    (∀ (bOp : BinaryOpC) (fstClos : Closure) (fstPos : Option RawSpan) (clos : Closure)
        (sndPos : Option RawSpan) (stack : Stack) (posOp : Option RawSpan) (ctr : Nat),
        (processBinaryOperation bOp fstClos fstPos clos sndPos stack posOp ctr).isSome
          = true) :=
  ⟨unary_step_none_iff_unsaturated_ite, processBinaryOperation_total⟩

/-- C3 (witness): the characterization applied at `Ite` on `false` with an
empty stack, and at a binary `Plus` step on two numbers. -/
theorem C3_step_aborts_iff_unsaturated_ite_witness :
    processUnaryOperation .ite ⟨.mk (.bool false) none, []⟩ none [] none 7 = none ∧
    (processBinaryOperation .plus (Closure.atomic_closure (.mk (.num 1) none)) none
      (Closure.atomic_closure (.mk (.num 2) none)) none [] none 0).isSome = true :=
  ⟨(C3_step_aborts_iff_unsaturated_ite.1 .ite ⟨.mk (.bool false) none, []⟩
      none [] none 7).mpr ⟨rfl, ⟨false, rfl⟩, by decide⟩,
    C3_step_aborts_iff_unsaturated_ite.2 .plus
      (Closure.atomic_closure (.mk (.num 1) none)) none
      (Closure.atomic_closure (.mk (.num 2) none)) none [] none 0⟩

/-- C4: evaluating `Op2(ListElemAt, [10, 20], -1)` does not fail with an
*Other* error although `-1` is outside `[0, 2)`: the saturating `f64 as
usize` cast clamps the negative index to `0` and the first element is
returned.  (`-1` passes the fractional-part check, as the last two
conjuncts record.) -/
theorem C4_elemAt_negative_index_returns_first_element :
    processBinaryOperation .listElemAt ⟨listTwoTerm, []⟩ none
        ⟨.mk (.num (-1)) none, []⟩ none [] none 0
      = some (.ok ⟨.mk (.num 10) none, []⟩, [], 0) ∧
      rustFract (-1) = 0 ∧ ((-1 : Rat) < 0) := by
  refine ⟨?_, by norm_num [rustFract, rustTrunc], by norm_num⟩
  have h1 : rustFract (-1) = 0 := by norm_num [rustFract, rustTrunc]
  have h2 : f64AsUsize (-1) = 0 := by norm_num [f64AsUsize]
  simp [processBinaryOperation, h1, h2, listTwoTerm, RichTerm.term, RichTerm.pos]

/-- C5 (counterexample): evaluating `Op2(Unwrap, Sym(0), Wrapped(0, 5))`
does not produce the wrapped term `5`; it produces the constant function
`Fun(-invld, 5)` (which yields `5` only once applied to one more
argument). -/
theorem C5_counterexample_unwrap_returns_const_function :
    processBinaryOperation .unwrap ⟨.mk (.sym 0) none, []⟩ none
        ⟨.mk (.wrapped 0 (.mk (.num 5) none)) none, []⟩ none [] none 0
      = some (.ok ⟨.mk (.funT "-invld" (.mk (.num 5) none)) none, []⟩, [], 0) ∧
      Term.funT "-invld" (.mk (.num 5) none) ≠ Term.num 5 :=
  ⟨rfl, fun h => Term.noConfusion h⟩

/-- C5 (amended): for matching symbols, `Op2(Unwrap, Sym s, Wrapped(s, t))`
produces the constant function `Fun(-invld, t)` (so `t` is reached only
after one more application); for differing symbols, or a non-`Wrapped`
second operand, it produces the identity function. -/
theorem C5_unwrap_behavior :
    ∀ (s1 s2 : Nat) (t : RichTerm) (env1 env2 : Environment)
      (p1 p2 fstPos sndPos posOp : Option RawSpan) (stack : Stack) (ctr : Nat)
      (t2 : Term),
      (s1 = s2 →
        processBinaryOperation .unwrap ⟨.mk (.sym s1) p1, env1⟩ fstPos
            ⟨.mk (.wrapped s2 t) p2, env2⟩ sndPos stack posOp ctr
          = some (.ok ⟨.mk (.funT "-invld" t) none, env2⟩, stack, ctr)) ∧
      (s1 ≠ s2 →
        processBinaryOperation .unwrap ⟨.mk (.sym s1) p1, env1⟩ fstPos
            ⟨.mk (.wrapped s2 t) p2, env2⟩ sndPos stack posOp ctr
          = some (.ok (Closure.atomic_closure (.mk (.funT "x" (RichTerm.varRt "x")) none)),
              stack, ctr)) ∧
      ((∀ s' t', t2 ≠ .wrapped s' t') →
        processBinaryOperation .unwrap ⟨.mk (.sym s1) p1, env1⟩ fstPos
            ⟨.mk t2 p2, env2⟩ sndPos stack posOp ctr
          = some (.ok (Closure.atomic_closure (.mk (.funT "x" (RichTerm.varRt "x")) none)),
              stack, ctr)) := by
  intro s1 s2 t env1 env2 p1 p2 fstPos sndPos posOp stack ctr t2
  refine ⟨?_, ?_, ?_⟩
  · intro h
    subst h
    simp [processBinaryOperation, RichTerm.term, RichTerm.pos]
  · intro h
    simp [processBinaryOperation, RichTerm.term, RichTerm.pos, h]
  · intro h
    cases t2 <;>
      first
        | exact absurd rfl (h _ _)
        | simp [processBinaryOperation, RichTerm.term, RichTerm.pos]

/-- C5 (witness): the matching-symbols case at `s = 1`, `t = 7`. -/
theorem C5_unwrap_behavior_witness :
    processBinaryOperation .unwrap ⟨.mk (.sym 1) none, []⟩ none
        ⟨.mk (.wrapped 1 (.mk (.num 7) none)) none, []⟩ none [] none 3
      = some (.ok ⟨.mk (.funT "-invld" (.mk (.num 7) none)) none, []⟩, [], 3) :=
  (C5_unwrap_behavior 1 1 (.mk (.num 7) none) [] [] none none none none none [] 3
    (.num 7)).1 rfl

/-- C6 (counterexample): strict unification is not symmetric.  In a state
where the free variable `Ptr 0` carries the row constraint `{b}`, unifying
the row `{a | Ptr 0}` with `{b, a}` succeeds (the tail `Ptr 0` is bound
directly, skipping the constraint check), while unifying them in the other
order fails (`row_add` checks the constraint and reports the conflict). -/
theorem C6_counterexample_unify_not_symmetric :
    isOkU (unifyF 100 c6State c6Left c6Right) = true ∧
      isErrU (unifyF 100 c6State c6Right c6Left) = true :=
  ⟨rfl, rfl⟩

/-- C8 (counterexample): in permissive mode, type-checking
`Op2(HasField, x, 1)` with `x` unbound does not succeed — the `Var` case
reports `UnboundIdentifier` regardless of the mode. -/
theorem C8_counterexample_hasField_permissive_can_fail :
    typeCheckF 10 emptyResolver emptyEnvs false
        (.mk (.op2 .hasField (.mk (.var "x") none) (.mk (.num 1) none)) none)
        (.concrete .dyn) emptyUState
      = some (.error (.unboundIdentifier "x" none), ⟨[none, none], [], []⟩) :=
  rfl

/-- C6 (amended): on the union-find core — two distinct free unification
variables — strict unification is symmetric and idempotent: `unify_(Ptr p,
Ptr q)` and `unify_(Ptr q, Ptr p)` both succeed, re-running a successful
unification succeeds again without changing the state, and after success the
two variables have the same representative.  (On general type wrappers each
of these properties fails, see the counterexample and C2/C9.) -/
theorem C6_unify_vars_symmetric_idempotent_root_equal :
    ∀ (fuel : Nat) (table : UnifTable) (constr : RowConstr) (names : List (Nat × Ident))
      (p q : Nat), p ≠ q → table[p]? = some none → table[q]? = some none →
      ∃ st' : UState,
        unifyF (fuel + 2) ⟨table, constr, names⟩ (.ptr p) (.ptr q) = some (.ok (), st') ∧
        isOkU (unifyF (fuel + 2) ⟨table, constr, names⟩ (.ptr q) (.ptr p)) = true ∧
        unifyF (fuel + 2) st' (.ptr p) (.ptr q) = some (.ok (), st') ∧
        getRoot (fuel + 2) st'.table p = some (.ptr q) ∧
        getRoot (fuel + 2) st'.table q = some (.ptr q) := by
  intro fuel table constr names p q hpq hp hq
  have hlt : p < table.length := (List.getElem?_eq_some.mp hp).1
  have hsp : (table.set p (some (.ptr q)))[p]? = some (some (.ptr q)) :=
    List.getElem?_set_eq_of_lt _ hlt
  have hsq : (table.set p (some (.ptr q)))[q]? = some none := by
    rw [List.getElem?_set_ne hpq]; exact hq
  refine ⟨⟨table.set p (some (.ptr q)),
      assocNatInsert (assocNatRemove (assocNatRemove constr p) q) p
        ((assocNat constr p).getD [] ++ (assocNat constr q).getD []), names⟩,
    ?_, ?_, ?_, ?_, ?_⟩
  · simp [unifyF, getRoot, hp, hq, hpq]
  · simp [unifyF, getRoot, isOkU, hp, hq, Ne.symm hpq]
  · simp [unifyF, getRoot, hsp, hsq]
  · simp [getRoot, hsp, hsq]
  · simp [getRoot, hsq]

/-- C6 (witness): the variable case at `p = 0`, `q = 1` in a fresh
two-variable table. -/
theorem C6_unify_vars_symmetric_idempotent_root_equal_witness :
    ∃ st' : UState,
      unifyF 2 ⟨[none, none], [], []⟩ (.ptr 0) (.ptr 1) = some (.ok (), st') ∧
      isOkU (unifyF 2 ⟨[none, none], [], []⟩ (.ptr 1) (.ptr 0)) = true ∧
      unifyF 2 st' (.ptr 0) (.ptr 1) = some (.ok (), st') ∧
      getRoot 2 st'.table 0 = some (.ptr 1) ∧
      getRoot 2 st'.table 1 = some (.ptr 1) :=
  C6_unify_vars_symmetric_idempotent_root_equal 0 [none, none] [] [] 0 1
    (by decide) rfl rfl

/-- C7: each fallible C evaluation entry point returns `NICKEL_RESULT_OK`
and writes the result into a non-`NULL` `out_expr` exactly when the
underlying evaluation succeeds; on failure it returns `NICKEL_RESULT_ERR`
and stores the error into `out_error` only when that pointer is non-`NULL`,
so a `NULL` error pointer discards diagnostics without a crash (the
functions are total and leave a `NULL` slot `NULL`). -/
theorem C7_capi_eval_result_routing :
    ∀ (res : Except CError Expr) (resS : Except CError (VM × Expr))
      (oe : Option Expr) (ovm : Option NickelVm) (oerr : Option NickelError),
      ((nickel_context_eval_deep res oe oerr).1 = .ok ↔ ∃ e, res = .ok e) ∧
      (∀ e, res = .ok e →
        nickel_context_eval_deep res oe oerr = (.ok, oe.map (fun _ => e), oerr)) ∧
      (∀ er, res = .error er →
        nickel_context_eval_deep res oe oerr = (.err, oe, oerr.map (fun _ => ⟨some er⟩))) ∧
      (oerr = none → (nickel_context_eval_deep res oe oerr).2.2 = none) ∧
      (nickel_context_eval_deep_for_export res oe oerr
        = nickel_context_eval_deep res oe oerr) ∧
      ((nickel_context_eval_shallow resS oe ovm oerr).1 = .ok ↔ ∃ ve, resS = .ok ve) ∧
      (∀ vm e, resS = .ok (vm, e) →
        nickel_context_eval_shallow resS oe ovm oerr
          = (.ok, oe.map (fun _ => e), ovm.map (fun _ => ⟨some vm⟩), oerr)) ∧
      (∀ er, resS = .error er →
        nickel_context_eval_shallow resS oe ovm oerr
          = (.err, oe, ovm, oerr.map (fun _ => ⟨some er⟩))) ∧
      (oerr = none → (nickel_context_eval_shallow resS oe ovm oerr).2.2.2 = none) := by
  intro res resS oe ovm oerr
  rcases res with er | e <;> rcases resS with es | ⟨vm, ex⟩ <;>
    simp [nickel_context_eval_deep, nickel_context_eval_deep_for_export,
      nickel_context_eval_shallow, do_eval]

/-- C7 (witness): a failing deep evaluation with a `NULL` error pointer
returns `ERR`, leaves the out-expression untouched and discards the
diagnostic. -/
theorem C7_capi_eval_result_routing_witness :
    nickel_context_eval_deep (.error ⟨"boom"⟩) (some nickel_expr_alloc) none
      = (.err, some nickel_expr_alloc, none) :=
  (C7_capi_eval_result_routing (.error ⟨"boom"⟩) (.error ⟨"boom"⟩)
    (some nickel_expr_alloc) none none).2.2.1 ⟨"boom"⟩ rfl

/-- C9: `unify_` performs no occurs check: binding a free unification
variable `p` to the concrete type `Ptr p -> Ptr p`, which contains `p`
itself, succeeds and records the cyclic binding `p -> (Ptr p -> Ptr p)` in
the unification table. -/
theorem C9_unify_no_occurs_check (fuel : Nat) (table : UnifTable) (constr : RowConstr)
    (names : List (Nat × Ident)) (p : Nat) (h : table[p]? = some none) :
    unifyF (fuel + 1) ⟨table, constr, names⟩ (.ptr p)
        (.concrete (.arrow (.ptr p) (.ptr p)))
      = some (.ok (),
          ⟨table.set p (some (.concrete (.arrow (.ptr p) (.ptr p)))), constr, names⟩) := by
  simp [unifyF, getRoot, h]

/-- C9 (witness): the concrete cyclic binding at `p = 0` in a one-variable
table. -/
theorem C9_unify_no_occurs_check_witness :
    unifyF 1 ⟨[none], [], []⟩ (.ptr 0) (.concrete (.arrow (.ptr 0) (.ptr 0)))
      = some (.ok (),
          ⟨[some (.concrete (.arrow (.ptr 0) (.ptr 0)))], [], []⟩) :=
  C9_unify_no_occurs_check 0 [none] [] [] 0 rfl

/-- C10: an expression freshly created by `nickel_expr_alloc` holds the
`Null` term: `nickel_expr_is_null` returns 1 on it and the other type
predicates return 0. -/
theorem C10_expr_alloc_is_null :
    nickel_expr_is_null nickel_expr_alloc = 1 ∧
      nickel_expr_is_bool nickel_expr_alloc = 0 ∧
      nickel_expr_is_number nickel_expr_alloc = 0 ∧
      nickel_expr_is_str nickel_expr_alloc = 0 ∧
      nickel_expr_is_record nickel_expr_alloc = 0 ∧
      nickel_expr_is_array nickel_expr_alloc = 0 ∧
      nickel_expr_is_enum_tag nickel_expr_alloc = 0 ∧
      nickel_expr_is_enum_variant nickel_expr_alloc = 0 :=
  ⟨rfl, rfl, rfl, rfl, rfl, rfl, rfl, rfl⟩

end Nickel

namespace Nickel

theorem unify_arrow_bool_not_ok (f : Nat) (st : UState) (src2 ty : TypeWrapper) :
    isOkU (unifyF f st (.concrete (.arrow src2 ty)) (.concrete .bool)) = false := by
  match f with
  | 0 => rfl
  | 1 => simp [unifyF, unifyConcreteF, isOkU]
  | (n + 2) => simp [unifyF, unifyConcreteF, AbsType.is_row_type, isOkU]

theorem unify_hasField_shape_not_ok (f : Nat) (st : UState) (n1 : Nat)
    (src2 ty : TypeWrapper) (h : st.table[n1]? = some none) :
    isOkU (unifyF f st
      (.concrete (.arrow (.ptr n1) (.concrete (.arrow src2 ty)))) hasFieldOpType) = false := by
  match f with
  | 0 => rfl
  | 1 => simp [unifyF, unifyConcreteF, isOkU, hasFieldOpType]
  | 2 => simp [unifyF, unifyConcreteF, isOkU, hasFieldOpType]
  | (g + 3) =>
    have hl1 : isOkU (unifyConcreteF g
        { st with table :=
            st.table.set n1 (some (.concrete (.arrow (.concrete .str) (.concrete .dyn)))) }
        (.arrow src2 ty) .bool) = false := by
      have h0 := unify_arrow_bool_not_ok (g + 1)
        { st with table :=
            st.table.set n1 (some (.concrete (.arrow (.concrete .str) (.concrete .dyn)))) }
        src2 ty
      simpa [unifyF] using h0
    rcases hcod : unifyConcreteF g
        { st with table :=
            st.table.set n1 (some (.concrete (.arrow (.concrete .str) (.concrete .dyn)))) }
        (.arrow src2 ty) .bool with _ | ⟨e | u, st2⟩
    · simp [unifyF, unifyConcreteF, hasFieldOpType, getRoot, h, hcod, isOkU]
    · simp [unifyF, unifyConcreteF, hasFieldOpType, getRoot, h, hcod, isOkU]
    · rw [hcod] at hl1; simp [isOkU] at hl1

/-- C8 (amended): `get_bop_type` gives `HasField` the operator type
`(Str -> Dyn) -> Bool`, so in strict mode type-checking any `HasField`
application NEVER succeeds: the fresh unification variable for the first
operand can only be bound to `Str -> Dyn`, after which the result arrow
`? -> ty` is unified against the non-arrow `Bool` and fails (concretely, on
`1 &. 2` from the empty state the reported error is `ArrowTypeMismatch`,
not a successful `Bool`). In permissive mode the operator-type unification
is skipped, and the check succeeds exactly when the checks of the two
operands (against fresh variables) succeed. -/
theorem C8_hasField_strict_fails_permissive_iff_operands :
    (∀ (fuel : Nat) (resolver : Resolver) (envs : Envs) (e t : RichTerm)
        (ty : TypeWrapper) (st : UState) (pos : Option RawSpan),
        isOkTc (typeCheckF fuel resolver envs true (.mk (.op2 .hasField e t) pos) ty st)
          = false) ∧
    isArrowMismatchTc (typeCheckF 100 emptyResolver emptyEnvs true
        (.mk (.op2 .hasField (.mk (.num 1) none) (.mk (.num 2) none)) none)
        (.concrete .dyn) emptyUState) = true ∧
    (∀ (fuel : Nat) (resolver : Resolver) (envs : Envs) (e t : RichTerm)
        (ty : TypeWrapper) (st : UState) (pos : Option RawSpan),
        typeCheckF (fuel + 1) resolver envs false (.mk (.op2 .hasField e t) pos) ty st =
          (match typeCheckF fuel resolver envs false e (.ptr st.table.length)
              { st with table := st.table ++ [none, none] } with
           | none => none
           | some (.error e', st3) => some (.error e', st3)
           | some (.ok (), st3) =>
               typeCheckF fuel resolver envs false t (.ptr (st.table.length + 1)) st3)) := by
  refine ⟨?_, rfl, ?_⟩
  · intro fuel resolver envs e t ty st pos
    match fuel with
    | 0 => rfl
    | 1 => simp [typeCheckF, getBopTypeF, isOkTc, RichTerm.term, RichTerm.pos]
    | (f + 2) =>
      have hfree : (st.table ++ [none, none])[st.table.length]? = some none := by
        rw [List.getElem?_append_right (Nat.le_refl _)]
        simp
      have hnotok := unify_hasField_shape_not_ok (f + 1)
        { st with table := st.table ++ [none, none] } st.table.length
        (.ptr (st.table.length + 1)) ty hfree
      simp only [hasFieldOpType] at hnotok
      rcases hu : unifyF (f + 1) { st with table := st.table ++ [none, none] }
          (.concrete (.arrow (.ptr st.table.length)
            (.concrete (.arrow (.ptr (st.table.length + 1)) ty))))
          (.concrete (.arrow (.concrete (.arrow (.concrete .str) (.concrete .dyn)))
            (.concrete .bool)))
        with _ | ⟨eu | uu, st2⟩
      · simp [typeCheckF, getBopTypeF, unifyTc, unify, newVar, RichTerm.term, RichTerm.pos,
          isOkTc, hu]
      · rcases hte : toTypecheckErr (f + 1) st2 pos eu with _ | te <;>
          simp [typeCheckF, getBopTypeF, unifyTc, unify, newVar, RichTerm.term, RichTerm.pos,
            isOkTc, hu, hte]
      · rw [hu] at hnotok; simp [isOkU] at hnotok
  · intro fuel resolver envs e t ty st pos
    cases fuel with
    | zero => rfl
    | succ g =>
      rw [typeCheckF]
      rcases hres : typeCheckF (g + 1) resolver envs false e (.ptr st.table.length)
          { st with table := st.table ++ [none, none] } with _ | ⟨e' | u, st3⟩ <;>
        simp [getBopTypeF, unifyTc, unify, newVar, RichTerm.term, RichTerm.pos, hres]

end Nickel
